import Mathlib

/-!
Verification development for the agents-lint repository: a shallow embedding
of the reference-extraction and validation pipeline (extractor, validators,
cross-document checker, scoring engine, remediation engine) together with
theorems settling the specification claims.

Strings are modelled as lists of characters; JavaScript numbers as `Nat`,
`Int` or `Rat` as appropriate; regular-expression matching is implemented
directly for the concrete patterns appearing in the source.
-/

namespace AgentsLint

/-- Text is modelled as a list of characters. -/
abbrev Str := List Char

/-- Conversion from Lean string literals into the text model. -/
def toL (s : String) : Str := s.toList

/-- The backtick character (written via its code point). -/
def btick : Char := Char.ofNat 96

/-- The apostrophe character (written via its code point). -/
def apos : Char := Char.ofNat 39

/-- JavaScript regex whitespace class membership, restricted to the ASCII
whitespace characters (space, tab, newline, carriage return, vertical tab,
form feed). -/
def isWs (c : Char) : Bool :=
  c = ' ' ∨ c = '\t' ∨ c = '\n' ∨ c = '\r' ∨ c = '\x0b' ∨ c = '\x0c'

/-- JavaScript regex word-character class: ASCII letters, digits, underscore. -/
def isWordChar (c : Char) : Bool :=
  ('a' ≤ c ∧ c ≤ 'z') ∨ ('A' ≤ c ∧ c ≤ 'Z') ∨ ('0' ≤ c ∧ c ≤ '9') ∨ c = '_'

/-- ASCII digit test. -/
def isDigitCh (c : Char) : Bool := '0' ≤ c ∧ c ≤ '9'

/-- Lower-casing of a text (JavaScript `toLowerCase`, ASCII part). -/
def lowerS (s : Str) : Str := s.map Char.toLower

/-- `hasPref p s` holds when `p` occurs at the very start of `s`
(JavaScript `startsWith`). -/
def hasPref : Str → Str → Bool
  | [], _ => true
  | _ :: _, [] => false
  | p :: ps, c :: cs => p = c && hasPref ps cs

/-- Case-insensitive `hasPref`. -/
def hasPrefCI (p s : Str) : Bool := hasPref (lowerS p) (lowerS s)

/-- Substring containment (JavaScript `includes`). -/
def containsSub (hay pat : Str) : Bool :=
  (List.range (hay.length + 1)).any (fun i => hasPref pat (hay.drop i))

/-- First index `j ≥ start` at which `pat` occurs in `hay`. -/
def findFrom (pat hay : Str) (start : Nat) : Option Nat :=
  ((List.range (hay.length + 1)).filter
    (fun i => decide (start ≤ i) && hasPref pat (hay.drop i))).head?

/-- Start of the line enclosing index `idx`
(JavaScript `content.lastIndexOf(newline, idx) + 1`). -/
def lineStartOf (content : Str) (idx : Nat) : Nat :=
  match ((List.range content.length).filter
      (fun j => decide (j ≤ idx) && content.getD j ' ' = '\n')).getLast? with
  | some j => j + 1
  | none => 0

/-- End of the line enclosing index `idx`
(JavaScript `content.indexOf(newline, idx)`, or the length when absent). -/
def lineEndOf (content : Str) (idx : Nat) : Nat :=
  match ((List.range content.length).filter
      (fun j => decide (idx ≤ j) && content.getD j ' ' = '\n')).head? with
  | some j => j
  | none => content.length

/-- The text of the line enclosing index `idx`
(JavaScript `content.substring(lineStart, lineEnd)`). -/
def lineAt (content : Str) (idx : Nat) : Str :=
  (content.take (lineEndOf content idx)).drop (lineStartOf content idx)

/-- JavaScript `String.trim` (ASCII whitespace). -/
def jsTrim (s : Str) : Str :=
  ((s.dropWhile isWs).reverse.dropWhile isWs).reverse

/-- Insertion into a JavaScript `Set` modelled as an insertion-ordered
duplicate-free list. -/
def setAdd (l : List Str) (x : Str) : List Str := if x ∈ l then l else l ++ [x]

/-- A JavaScript `Set` built from a list (deduplication keeping first
occurrences). -/
def setOfList (l : List Str) : List Str := l.foldl setAdd []

/-- Insertion into a set of line numbers. -/
def setAddNat (l : List Nat) (x : Nat) : List Nat := if x ∈ l then l else l ++ [x]

/-- JavaScript `Math.round`: round half towards positive infinity. -/
def jsRound (q : ℚ) : ℤ := ⌊q + 1/2⌋

/-! ## Data model (src/types.ts) -/

/-- Issue severities. -/
inductive Severity | error | warn | info
deriving DecidableEq, Repr

/-- One finding (`LintIssue` in src/types.ts). -/
structure LintIssue where
  rule : Str
  severity : Severity
  message : Str
  line : Option Nat := none
  context : Option Str := none
  suggestion : Option Str := none
deriving DecidableEq, Repr

/-- Output of one validator (`CheckResult` in src/types.ts). -/
structure CheckResult where
  checker : Str
  issues : List LintIssue
  passed : Nat
  failed : Nat
deriving DecidableEq, Repr

/-- One parsed document section (`ParsedSection` in src/types.ts). -/
structure ParsedSection where
  title : Str
  content : Str
  startLine : Nat
  endLine : Nat
deriving DecidableEq, Repr

/-- The parsed document (`ParsedAgentsMd` in src/types.ts). -/
structure ParsedAgentsMd where
  rawContent : Str
  sections : List ParsedSection
  mentionedPaths : List Str
  mentionedScripts : List Str
  mentionedDependencies : List Str
  mentionedFrameworks : List Str
  lines : List Str
deriving DecidableEq, Repr

/-- Lint configuration (`LintConfig` in src/types.ts); only the fields the
checkers consult. `none` models an absent field. -/
structure LintConfig where
  staleDependencySeverity : Option Severity := none
  missingSectionSeverity : Option Severity := none
  ignorePatterns : Option (List Str) := none
  requiredSections : Option (List Str) := none
deriving Repr

/-- The default (empty) configuration. -/
def defaultConfig : LintConfig := {}

/-- A parsed package manifest: the declared dependency names by category and
the script table, as read from package.json. -/
structure Pkg where
  dependencies : List Str := []
  devDependencies : List Str := []
  peerDependencies : List Str := []
deriving Repr

/-- Per-document report (`LintReport` in src/types.ts); the timestamp is
omitted from the model. -/
structure LintReport where
  file : Str
  score : ℤ
  results : List CheckResult
  totalIssues : Nat
  errors : Nat
  warnings : Nat
  infos : Nat
deriving Repr

/-- Multi-document report (`MultiLintReport`). -/
structure MultiLintReport where
  files : List Str
  reports : List LintReport
  crossCheck : CheckResult
  overallScore : ℤ
  totalErrors : Nat
  totalWarnings : Nat
  totalInfos : Nat
deriving Repr

/-! ## Scoring engine (src/reporter.ts, `computeScore` and `scoreGrade`) -/

/-- Penalty weight of one issue by severity (reporter.ts switch). -/
def sevPenalty : Severity → Nat
  | .error => 15
  | .warn => 7
  | .info => 2

/-- Accumulation step of `computeScore`: running
(totalChecks, totalPassed, weightedPenalty). -/
def scoreAccum (acc : Nat × Nat × Nat) (r : CheckResult) : Nat × Nat × Nat :=
  (acc.1 + r.passed + r.failed,
   acc.2.1 + r.passed,
   acc.2.2 + r.issues.foldl (fun p i => p + sevPenalty i.severity) 0)

/-- `computeScore` from src/reporter.ts. -/
def computeScore (results : List CheckResult) : ℤ :=
  let s := results.foldl scoreAccum (0, 0, 0)
  if s.1 = 0 then 100
  else max 0 (min 100 (jsRound ((s.2.1 : ℚ) / (s.1 : ℚ) * 100 - (s.2.2 : ℚ))))

/-- `scoreGrade` from src/reporter.ts. -/
def scoreGrade (score : ℤ) : String :=
  if 90 ≤ score then "A"
  else if 80 ≤ score then "B"
  else if 70 ≤ score then "C"
  else if 50 ≤ score then "D"
  else "F"

/-- Specification-side total of applicable checks:
`totalChecks = Σ (passed + failed)`. -/
def totalChecksOf (results : List CheckResult) : Nat :=
  (results.map (fun r => r.passed + r.failed)).sum

/-- Specification-side total of passed checks. -/
def totalPassedOf (results : List CheckResult) : Nat :=
  (results.map (fun r => r.passed)).sum

/-- Number of issues of a given severity across all results. -/
def severityCount (results : List CheckResult) (sev : Severity) : Nat :=
  ((results.map (fun r => r.issues)).flatten.filter
    (fun i => i.severity = sev)).length

/-- Specification-side weighted penalty:
`15 × errorCount + 7 × warnCount + 2 × infoCount`. -/
def penaltyOf (results : List CheckResult) : Nat :=
  15 * severityCount results .error + 7 * severityCount results .warn +
    2 * severityCount results .info

/-- Clamp an integer to the interval `[0, 100]`. -/
def clamp100 (z : ℤ) : ℤ := max 0 (min 100 z)

/-- Weighted penalty of one issue list, via the per-severity filters. -/
lemma issues_foldl_penalty (l : List LintIssue) (init : Nat) :
    l.foldl (fun p i => p + sevPenalty i.severity) init
      = init + 15 * (l.filter (fun i => i.severity = Severity.error)).length
             + 7 * (l.filter (fun i => i.severity = Severity.warn)).length
             + 2 * (l.filter (fun i => i.severity = Severity.info)).length := by
  induction l generalizing init with
  | nil => simp
  | cons a l ih =>
    simp only [List.foldl_cons, ih, List.filter_cons]
    cases h : a.severity <;> simp [h, sevPenalty] <;> ring_nf

/-- The `computeScore` accumulator loop computes the three specification
sums. -/
lemma scoreAccum_foldl (results : List CheckResult) (a b c : Nat) :
    results.foldl scoreAccum (a, b, c)
      = (a + totalChecksOf results, b + totalPassedOf results,
         c + penaltyOf results) := by
  induction results generalizing a b c with
  | nil => simp [totalChecksOf, totalPassedOf, penaltyOf, severityCount]
  | cons r rs ih =>
    simp only [List.foldl_cons, scoreAccum, ih]
    refine Prod.ext ?_ (Prod.ext ?_ ?_) <;>
      simp [totalChecksOf, totalPassedOf, penaltyOf, severityCount,
        issues_foldl_penalty, List.filter_append] <;> ring_nf

/-- `computeScore` agrees with the specification formula
`clamp(round(100 × totalPassed / totalChecks − penalty), 0, 100)`. -/
lemma computeScore_eq (results : List CheckResult) :
    computeScore results
      = if totalChecksOf results = 0 then 100
        else clamp100 (jsRound
          (100 * (totalPassedOf results : ℚ) / (totalChecksOf results : ℚ)
            - (penaltyOf results : ℚ))) := by
  unfold computeScore clamp100
  rw [scoreAccum_foldl]
  simp only [Nat.zero_add]
  rcases Nat.eq_zero_or_pos (totalChecksOf results) with h | h
  · simp [h]
  · rw [if_neg (Nat.pos_iff_ne_zero.mp h), if_neg (Nat.pos_iff_ne_zero.mp h)]
    congr 2
    ring_nf

/-- The score is always in `[0, 100]`. -/
lemma computeScore_mem_range (results : List CheckResult) :
    0 ≤ computeScore results ∧ computeScore results ≤ 100 := by
  rw [computeScore_eq]
  split
  · exact ⟨by norm_num, by norm_num⟩
  · unfold clamp100
    refine ⟨le_max_left _ _, max_le (by norm_num) (min_le_left _ _)⟩

/-- Grade bands of `scoreGrade`. -/
lemma scoreGrade_bands (s : ℤ) :
    (scoreGrade s = "A" ↔ 90 ≤ s) ∧
    (scoreGrade s = "B" ↔ 80 ≤ s ∧ s < 90) ∧
    (scoreGrade s = "C" ↔ 70 ≤ s ∧ s < 80) ∧
    (scoreGrade s = "D" ↔ 50 ≤ s ∧ s < 70) ∧
    (scoreGrade s = "F" ↔ s < 50) := by
  unfold scoreGrade
  split_ifs <;> refine ⟨?_, ?_, ?_, ?_, ?_⟩ <;>
    simp_all <;> omega

/-- Claim C1: for every list of CheckResults, `computeScore` returns 100 when
the total of passed+failed checks is zero, and otherwise returns
`clamp(round(100 × totalPassed / totalChecks − penalty), 0, 100)`, an integer
in `[0, 100]`; and the grade is A iff the score is at least 90, B iff in
`[80, 90)`, C iff in `[70, 80)`, D iff in `[50, 70)`, and F otherwise. -/
theorem computeScore_matches_spec (results : List CheckResult) :
    (computeScore results
      = if totalChecksOf results = 0 then 100
        else clamp100 (jsRound
          (100 * (totalPassedOf results : ℚ) / (totalChecksOf results : ℚ)
            - (penaltyOf results : ℚ))))
    ∧ 0 ≤ computeScore results ∧ computeScore results ≤ 100
    ∧ (∀ s : ℤ,
        (scoreGrade s = "A" ↔ 90 ≤ s) ∧
        (scoreGrade s = "B" ↔ 80 ≤ s ∧ s < 90) ∧
        (scoreGrade s = "C" ↔ 70 ≤ s ∧ s < 80) ∧
        (scoreGrade s = "D" ↔ 50 ≤ s ∧ s < 70) ∧
        (scoreGrade s = "F" ↔ s < 50)) :=
  ⟨computeScore_eq results, (computeScore_mem_range results).1,
   (computeScore_mem_range results).2, scoreGrade_bands⟩

/-! ### Claim C4: monotonicity in issues, and the pass-rate bound -/

/-- Append one issue to the `i`-th result of a list (all counters kept);
out-of-range indices leave the list unchanged. -/
def addIssueAt : List CheckResult → Nat → LintIssue → List CheckResult
  | [], _, _ => []
  | r :: rs, 0, issue => { r with issues := r.issues ++ [issue] } :: rs
  | r :: rs, n + 1, issue => r :: addIssueAt rs n issue

lemma totalChecksOf_addIssueAt (results : List CheckResult) (i : Nat)
    (issue : LintIssue) :
    totalChecksOf (addIssueAt results i issue) = totalChecksOf results := by
  induction results generalizing i with
  | nil => rfl
  | cons r rs ih =>
    cases i with
    | zero => simp [addIssueAt, totalChecksOf]
    | succ n => simp [addIssueAt, totalChecksOf] at ih ⊢; exact ih n

lemma totalPassedOf_addIssueAt (results : List CheckResult) (i : Nat)
    (issue : LintIssue) :
    totalPassedOf (addIssueAt results i issue) = totalPassedOf results := by
  induction results generalizing i with
  | nil => rfl
  | cons r rs ih =>
    cases i with
    | zero => simp [addIssueAt, totalPassedOf]
    | succ n => simp [addIssueAt, totalPassedOf] at ih ⊢; exact ih n

lemma severityCount_addIssueAt_ge (results : List CheckResult) (i : Nat)
    (issue : LintIssue) (sev : Severity) :
    severityCount results sev ≤ severityCount (addIssueAt results i issue) sev := by
  induction results generalizing i with
  | nil => simp [addIssueAt]
  | cons r rs ih =>
    cases i with
    | zero =>
      simp only [addIssueAt, severityCount, List.map_cons, List.flatten_cons,
        List.filter_append, List.length_append]
      omega
    | succ n =>
      simp only [addIssueAt, severityCount, List.map_cons, List.flatten_cons,
        List.filter_append, List.length_append]
      have := ih n
      simp only [severityCount] at this
      omega

lemma penaltyOf_addIssueAt_ge (results : List CheckResult) (i : Nat)
    (issue : LintIssue) :
    penaltyOf results ≤ penaltyOf (addIssueAt results i issue) := by
  unfold penaltyOf
  have h1 := severityCount_addIssueAt_ge results i issue .error
  have h2 := severityCount_addIssueAt_ge results i issue .warn
  have h3 := severityCount_addIssueAt_ge results i issue .info
  omega

lemma jsRound_mono {q r : ℚ} (h : q ≤ r) : jsRound q ≤ jsRound r :=
  Int.floor_le_floor (by linarith)

lemma clamp100_mono {x y : ℤ} (h : x ≤ y) : clamp100 x ≤ clamp100 y :=
  max_le_max le_rfl (min_le_min le_rfl h)

/-- Claim C4 (amended): appending one issue of any severity to any result
never increases the score; and with a nonzero check total the score never
exceeds the ROUNDED raw pass rate `round(100 × totalPassed / totalChecks)`
(the unrounded raw pass rate can be exceeded, see the counterexample). -/
theorem computeScore_monotone_and_bounded (results : List CheckResult)
    (i : Nat) (issue : LintIssue) :
    computeScore (addIssueAt results i issue) ≤ computeScore results
    ∧ (totalChecksOf results ≠ 0 →
        computeScore results
          ≤ jsRound (100 * (totalPassedOf results : ℚ)
              / (totalChecksOf results : ℚ))) := by
  constructor
  · rw [computeScore_eq, computeScore_eq, totalChecksOf_addIssueAt,
      totalPassedOf_addIssueAt]
    split
    · exact le_rfl
    · refine clamp100_mono (jsRound_mono ?_)
      have := penaltyOf_addIssueAt_ge results i issue
      have hcast : (penaltyOf results : ℚ) ≤ (penaltyOf (addIssueAt results i issue) : ℚ) := by
        exact_mod_cast this
      linarith
  · intro h
    rw [computeScore_eq, if_neg h]
    set b : ℚ := 100 * (totalPassedOf results : ℚ) / (totalChecksOf results : ℚ) with hb
    have hb0 : 0 ≤ b := by
      apply div_nonneg
      · positivity
      · positivity
    have hround : 0 ≤ jsRound b := Int.floor_nonneg.mpr (by linarith)
    have hle : jsRound (b - (penaltyOf results : ℚ)) ≤ jsRound b := by
      apply jsRound_mono
      have : (0 : ℚ) ≤ (penaltyOf results : ℚ) := by positivity
      linarith
    unfold clamp100
    exact max_le hround (le_trans (min_le_right _ _) hle)

/-- A result set with 2 passes and 1 failure and no issues. -/
def passRateExample : CheckResult :=
  { checker := toL "structure", issues := [], passed := 2, failed := 1 }

/-- Claim C4, counterexample to the unrounded pass-rate bound: with 2 passed
and 1 failed checks and no issues the score is 67, which exceeds the raw
pass rate 100 × 2 / 3 = 66.66…; the bound only holds after rounding. -/
theorem computeScore_exceeds_raw_pass_rate :
    computeScore [passRateExample] = 67 ∧
    ¬ ((computeScore [passRateExample] : ℚ)
        ≤ 100 * (totalPassedOf [passRateExample] : ℚ)
            / (totalChecksOf [passRateExample] : ℚ)) := by
  have h : computeScore [passRateExample] = 67 := by
    rw [computeScore_eq]
    have h2 : totalChecksOf [passRateExample] = 3 := by decide
    have h3 : totalPassedOf [passRateExample] = 2 := by decide
    have h4 : penaltyOf [passRateExample] = 0 := by decide
    rw [h2, h3, h4, if_neg (by norm_num)]
    have : (100 * ((2 : Nat) : ℚ) / ((3 : Nat) : ℚ) - ((0 : Nat) : ℚ)) = 200 / 3 := by
      norm_num
    rw [this]
    have hfloor : jsRound (200 / 3) = 67 := by
      unfold jsRound
      rw [Int.floor_eq_iff]
      norm_num
    rw [hfloor]
    rfl
  refine ⟨h, ?_⟩
  rw [h]
  have h1 : (totalPassedOf [passRateExample] : ℚ) = 2 := by norm_num [totalPassedOf, passRateExample]
  have h2 : (totalChecksOf [passRateExample] : ℚ) = 3 := by norm_num [totalChecksOf, passRateExample]
  rw [h1, h2]
  norm_num

/-- Claim C4, witness: the theorem instantiated at a concrete result list. -/
theorem computeScore_monotone_and_bounded_witness :
    computeScore (addIssueAt [passRateExample] 0
        { rule := toL "r", severity := .warn, message := toL "m" })
      ≤ computeScore [passRateExample]
    ∧ computeScore [passRateExample]
        ≤ jsRound (100 * (totalPassedOf [passRateExample] : ℚ)
            / (totalChecksOf [passRateExample] : ℚ)) :=
  ⟨(computeScore_monotone_and_bounded [passRateExample] 0
      { rule := toL "r", severity := .warn, message := toL "m" }).1,
   (computeScore_monotone_and_bounded [passRateExample] 0
      { rule := toL "r", severity := .warn, message := toL "m" }).2 (by decide)⟩


/-! ## Extractor (src/parser.ts) -/

/-- Generic scanner implementing the JavaScript `while (regex.exec(content))`
loop over a global-flag regex: at each position the matcher is tried on the
remaining suffix (receiving also the absolute index); on a match
`(capture, matchLength)` the scan records `(index, capture)` and resumes after
the match, otherwise it advances one character. The fuel argument starts at
the text length. -/
def scanWith (f : Nat → Str → Option (Str × Nat)) :
    Nat → Str → Nat → List (Nat × Str)
  | 0, _, _ => []
  | fuel + 1, s, i =>
    match s with
    | [] => []
    | _ :: rest =>
      match f i s with
      | some (cap, k) =>
        (i, cap) :: scanWith f fuel (s.drop (max k 1)) (i + max k 1)
      | none => scanWith f fuel rest (i + 1)

/-- All matches of one pattern over a text. -/
def scanAll (f : Nat → Str → Option (Str × Nat)) (content : Str) :
    List (Nat × Str) :=
  scanWith f content.length content 0

/-- Matcher for the first path pattern: a backtick, a character in `[./]`,
one or more characters that are neither whitespace nor a backtick, and a
closing backtick; the capture starts at the `[./]` character. -/
def tryPath1 : Nat → Str → Option (Str × Nat) := fun _ s =>
  match s with
  | b :: c :: rest =>
    if b = btick ∧ (c = '.' ∨ c = '/') then
      let run := rest.takeWhile (fun ch => ¬ isWs ch ∧ ch ≠ btick)
      if run.length = 0 then none
      else if (rest.drop run.length).head? = some btick then
        some (c :: run, run.length + 3)
      else none
    else none
  | _ => none

/-- Matcher for the second path pattern (bold paths): `**`, a character in
`[./]`, one or more characters that are neither whitespace nor `*`, then
`**`. -/
def tryPath2 : Nat → Str → Option (Str × Nat) := fun _ s =>
  match s with
  | '*' :: '*' :: c :: rest =>
    if c = '.' ∨ c = '/' then
      let run := rest.takeWhile (fun ch => ¬ isWs ch ∧ ch ≠ '*')
      if run.length = 0 then none
      else if (rest.drop run.length).take 2 = ['*', '*'] then
        some (c :: run, run.length + 5)
      else none
    else none
  | _ => none

/-- Keywords of the third path pattern (case-insensitive). -/
def KW3 : List Str := [toL "in", toL "at", toL "to", toL "from", toL "see"]

/-- Matcher for the third path pattern: a keyword, whitespace, then a
backtick-delimited run containing a slash with at least one character on each
side; the capture is the full delimited run and the match starts at the
keyword. -/
def tryPath3 : Nat → Str → Option (Str × Nat) := fun _ s =>
  match (KW3.filter (fun kw => hasPrefCI kw s)).head? with
  | none => none
  | some kw =>
    let r1 := s.drop kw.length
    let ws := r1.takeWhile isWs
    if ws.length = 0 then none
    else
      match r1.drop ws.length with
      | [] => none
      | b :: r2 =>
        if b = btick then
          let run := r2.takeWhile (fun ch => ch ≠ btick)
          if (r2.drop run.length).head? = some btick
              ∧ containsSub ((run.drop 1).dropLast) (toL "/") then
            some (run, kw.length + ws.length + run.length + 2)
          else none
        else none

/-- Keywords of the fourth path pattern (case-insensitive). -/
def KW4 : List Str := [toL "directory", toL "folder", toL "file", toL "path"]

/-- Matcher for the fourth path pattern: a keyword, a colon, optional
whitespace, then a nonempty backtick-delimited run. -/
def tryPath4 : Nat → Str → Option (Str × Nat) := fun _ s =>
  match (KW4.filter (fun kw => hasPrefCI kw s)).head? with
  | none => none
  | some kw =>
    match s.drop kw.length with
    | ':' :: r1 =>
      let ws := r1.takeWhile isWs
      match r1.drop ws.length with
      | b :: r2 =>
        if b = btick then
          let run := r2.takeWhile (fun ch => ch ≠ btick)
          if run.length ≠ 0 ∧ (r2.drop run.length).head? = some btick then
            some (run, kw.length + 1 + ws.length + run.length + 2)
          else none
        else none
      | [] => none
    | _ => none

/-- All matches produced by the four `PATH_PATTERNS`, in pattern order
(each pattern rescans the whole content with a fresh regex, as the source
clones each regex before use). -/
def pathMatches (content : Str) : List (Nat × Str) :=
  scanAll tryPath1 content ++ scanAll tryPath2 content ++
    scanAll tryPath3 content ++ scanAll tryPath4 content

/-- The negating phrases of `NEGATING_PHRASES` (stored lower-case; they are
matched case-insensitively). -/
def NEGATING_PHRASES : List Str :=
  [toL "no longer", toL "removed", toL "not exist",
   toL "doesn" ++ [apos] ++ toL "t exist", toL "does not exist",
   toL "deprecated"]

/-- `isInNegatingContext` from src/parser.ts: test the line enclosing the
match index for any negating phrase. -/
def isInNegatingContext (content : Str) (matchIndex : Nat) : Bool :=
  NEGATING_PHRASES.any
    (fun p => containsSub (lowerS (lineAt content matchIndex)) p)

/-- The path-likeness filter of `extractPaths`: nonempty and starting with
`./`, `../` or `/`, or containing a slash. -/
def pathLike (candidate : Str) : Bool :=
  candidate ≠ [] ∧ (hasPref (toL "./") candidate ∨ hasPref (toL "../") candidate
    ∨ hasPref (toL "/") candidate ∨ containsSub candidate (toL "/"))

/-- Strip one trailing `,`, `;`, `:` or `.`
(JavaScript `replace(/[,;:.]$/, "")`). -/
def stripTrailingPunct (s : Str) : Str :=
  match s.getLast? with
  | some c => if c = ',' ∨ c = ';' ∨ c = ':' ∨ c = '.' then s.dropLast else s
  | none => s

/-- One step of the `extractPaths` accumulation over a match. -/
def pathStep (content : Str) (acc : List Str) (m : Nat × Str) : List Str :=
  if pathLike m.2 then
    if isInNegatingContext content m.1 then acc
    else setAdd acc (stripTrailingPunct m.2)
  else acc

/-- `extractPaths` from src/parser.ts. -/
def extractPaths (content : Str) : List Str :=
  (pathMatches content).foldl (pathStep content) []

/-- Character class `[\w/.-]` of the dependency literal pattern. -/
def depClassA (c : Char) : Bool := isWordChar c ∨ c = '/' ∨ c = '.' ∨ c = '-'

/-- Character class `[\d.^~*]` of the dependency literal pattern. -/
def depClassB (c : Char) : Bool :=
  isDigitCh c ∨ c = '.' ∨ c = '^' ∨ c = '~' ∨ c = '*'

/-- Matcher for the backtick-delimited `name@version` dependency pattern. -/
def tryDep1 : Nat → Str → Option (Str × Nat) := fun _ s =>
  match s with
  | b :: c0 :: rest =>
    if b = btick ∧ (isWordChar c0 ∨ c0 = '@') then
      let runA := rest.takeWhile depClassA
      if runA.length = 0 then none
      else
        match rest.drop runA.length with
        | a :: r2 =>
          if a = '@' then
            let runB := r2.takeWhile depClassB
            if runB.length = 0 then none
            else if (r2.drop runB.length).head? = some btick then
              some (c0 :: runA ++ '@' :: runB, runA.length + runB.length + 4)
            else none
          else none
        | [] => none
    else none
  | _ => none

/-- The fixed framework/tool vocabulary of the second dependency pattern. -/
def DEP_WORDS : List Str :=
  [toL "react", toL "vue", toL "angular", toL "next", toL "nuxt",
   toL "svelte", toL "solid", toL "astro", toL "remix", toL "express",
   toL "fastify", toL "hono", toL "nestjs", toL "prisma", toL "drizzle",
   toL "zod", toL "typescript"]

/-- Word boundary to the left of absolute index `i`. -/
def wordBoundaryBefore (content : Str) (i : Nat) : Bool :=
  i = 0 ∨ ¬ isWordChar (content.getD (i - 1) ' ')

/-- Matcher for the vocabulary dependency pattern, with the word boundaries
of `\b(...)\b` and case-insensitive matching. -/
def tryDep2 (content : Str) : Nat → Str → Option (Str × Nat) := fun i s =>
  match (DEP_WORDS.filter (fun w => hasPrefCI w s)).head? with
  | none => none
  | some w =>
    if wordBoundaryBefore content i &&
        (match (s.drop w.length).head? with
         | none => true
         | some c => ! isWordChar c) then
      some (s.take w.length, w.length)
    else none

/-- All matches of the two `DEPENDENCY_PATTERNS`, in pattern order. -/
def depMatches (content : Str) : List (Nat × Str) :=
  scanAll tryDep1 content ++ scanAll (tryDep2 content) content

/-- `extractDependencies` from src/parser.ts: lower-case each capture and
keep only the part before the first `@` (JavaScript `split(at)[0]`). -/
def extractDependencies (content : Str) : List Str :=
  (depMatches content).foldl
    (fun acc m =>
      if m.2 ≠ [] then setAdd acc ((lowerS m.2).takeWhile (fun c => c ≠ '@'))
      else acc)
    []

/-- `FRAMEWORK_PATTERNS` from src/parser.ts: module-level global-flag
regexes, all of them literal strings, listed per framework family. -/
def FRAMEWORK_PATTERNS : List (Str × List Str) :=
  [(toL "angular",
    [toL "NgModule", toL "forRoot()", toL "ngcc", toL "ViewChild"]),
   (toL "react",
    [toL "React.Component", toL "componentDidMount", toL "componentWillMount"]),
   (toL "vue", [toL "Vue.use", toL "new Vue("]),
   (toL "node", [toL "require(", toL "module.exports"])]

/-- JavaScript `regex.test(content)` for a global-flag regex with a literal
pattern: search from `lastIndex`; on success set `lastIndex` past the match,
on failure reset it to 0. -/
def jsTestG (pat content : Str) (lastIndex : Nat) : Bool × Nat :=
  match findFrom pat content lastIndex with
  | some j => (true, j + pat.length)
  | none => (false, 0)

/-- Run the pattern list of one framework against the content, threading the
per-pattern `lastIndex` state; the loop stops at the first hit (the `break`
in the source), leaving the state of the remaining patterns untouched. -/
def testPatterns (content : Str) : List Str → List Nat → Bool × List Nat
  | [], st => (false, st)
  | _ :: _, [] => (false, [])
  | p :: ps, li :: lis =>
    let r := jsTestG p content li
    if r.1 then (true, r.2 :: lis)
    else
      let t := testPatterns content ps lis
      (t.1, r.2 :: t.2)

/-- The body of `extractFrameworks`, over an explicit per-pattern
`lastIndex` state (the source mutates the module-level regexes). -/
def extractFrameworksAux (content : Str) :
    List (Str × List Str) → List (List Nat) → List Str × List (List Nat)
  | [], _ => ([], [])
  | _ :: _, [] => ([], [])
  | (name, pats) :: fs, st :: sts =>
    let r := testPatterns content pats st
    let t := extractFrameworksAux content fs sts
    ((if r.1 then [name] else []) ++ t.1, r.2 :: t.2)

/-- The initial module state: every `lastIndex` is 0. -/
def initFrameworkState : List (List Nat) :=
  FRAMEWORK_PATTERNS.map (fun p => p.2.map (fun _ => 0))

/-- `extractFrameworks` from src/parser.ts, with the module-level regex
state made explicit. -/
def extractFrameworks (content : Str) (st : List (List Nat)) :
    List Str × List (List Nat) :=
  extractFrameworksAux content FRAMEWORK_PATTERNS st

/-! ## Section parsing (src/parser.ts, `parseSections`) -/

/-- Match a line against the heading regex (one to three `#` characters,
whitespace, then a nonempty rest); returns the captured title text. The
whitespace run is greedy with backtracking, so a line of marks and
whitespace only still captures its final whitespace character. -/
def headingMatch (line : Str) : Option Str :=
  let hashes := line.takeWhile (fun c => c = '#')
  if hashes.length = 0 ∨ 3 < hashes.length then none
  else
    let rest := line.dropWhile (fun c => c = '#')
    let ws := rest.takeWhile isWs
    let body := rest.drop ws.length
    if ws.length = 0 then none
    else if body ≠ [] then some body
    else if 2 ≤ ws.length then some (ws.drop (ws.length - 1))
    else none

/-- The `lines.forEach` loop of `parseSections`, with the accumulated
section list and the open section as explicit state. -/
def parseSectionsAux :
    List Str → Nat → List ParsedSection → Option ParsedSection →
      List ParsedSection
  | [], i, secs, cur =>
    (match cur with
     | none => secs
     | some c => secs ++ [{ c with endLine := i - 1 }])
  | line :: rest, i, secs, cur =>
    match headingMatch line with
    | some title =>
      parseSectionsAux rest (i + 1)
        (match cur with
         | none => secs
         | some c => secs ++ [{ c with endLine := i - 1 }])
        (some { title := jsTrim title, content := [], startLine := i,
                endLine := i })
    | none =>
      match cur with
      | some c =>
        parseSectionsAux rest (i + 1) secs
          (some { c with content := c.content ++ line ++ ['\n'] })
      | none => parseSectionsAux rest (i + 1) secs none

/-- `parseSections` from src/parser.ts. -/
def parseSections (lines : List Str) : List ParsedSection :=
  parseSectionsAux lines 0 [] none


/-! ## Extraction lemmas and claims C2, C5, C9 -/

lemma mem_setAdd {l : List Str} {x y : Str} :
    y ∈ setAdd l x ↔ y ∈ l ∨ y = x := by
  unfold setAdd
  split
  · rename_i h
    constructor
    · exact Or.inl
    · rintro (hy | rfl)
      · exact hy
      · exact h
  · simp

/-- Membership in the `extractPaths` accumulation: an element is produced
exactly by some path-like, non-negated match after punctuation stripping. -/
lemma mem_foldl_pathStep (content : Str) (ms : List (Nat × Str))
    (acc : List Str) (x : Str) :
    x ∈ ms.foldl (pathStep content) acc ↔
      x ∈ acc ∨ ∃ m ∈ ms, pathLike m.2 = true
        ∧ isInNegatingContext content m.1 = false
        ∧ stripTrailingPunct m.2 = x := by
  induction ms generalizing acc with
  | nil => simp
  | cons m ms ih =>
    rw [List.foldl_cons, ih]
    by_cases hp : pathLike m.2 <;> by_cases hn : isInNegatingContext content m.1 <;>
      · simp [pathStep, hp, hn, mem_setAdd]
        try tauto

/-- Claim C2 (amended): a match whose enclosing line contains a negating
phrase is discarded; a candidate appears in `mentionedPaths` precisely when
some pattern produces a path-like match of it on a line without any negating
phrase (after stripping one trailing punctuation character). -/
theorem extractPaths_negation_characterization (content candidate : Str) :
    candidate ∈ extractPaths content ↔
      ∃ m ∈ pathMatches content, pathLike m.2 = true
        ∧ isInNegatingContext content m.1 = false
        ∧ stripTrailingPunct m.2 = candidate := by
  unfold extractPaths
  rw [mem_foldl_pathStep]
  simp

/-- A document that mentions the same path once on a clean line and once on
a line containing "removed". -/
def negatedDupContent : Str := toL "`./a/b` ok\n`./a/b` removed"

/-- Claim C2, counterexample to the claim as stated: at index 11 the first
path pattern matches the path-like candidate `./a/b` on a line containing
the negating phrase "removed", yet the candidate still appears in
`mentionedPaths` (contributed by its other, non-negated occurrence). -/
theorem extractPaths_negation_counterexample :
    (11, toL "./a/b") ∈ pathMatches negatedDupContent
    ∧ pathLike (toL "./a/b") = true
    ∧ isInNegatingContext negatedDupContent 11 = true
    ∧ stripTrailingPunct (toL "./a/b") ∈ extractPaths negatedDupContent := by
  decide

/-- A document containing exactly one occurrence of the literal pattern
`NgModule`. -/
def frameworkBugContent : Str := toL "uses NgModule here"

/-- Claim C5: the module-level framework regexes carry the global flag and
are used via `test`, so their `lastIndex` survives between calls; on a
document with a single `NgModule` occurrence the first extraction returns
`angular` and the immediately repeated extraction on identical text returns
nothing. This is the failing evaluation for the determinism claim. -/
theorem extractFrameworks_not_idempotent :
    (extractFrameworks frameworkBugContent initFrameworkState).1
      = [toL "angular"]
    ∧ (extractFrameworks frameworkBugContent
        (extractFrameworks frameworkBugContent initFrameworkState).2).1
      = [] := by
  decide

/-- A document mentioning a scoped package as a `name@version` literal. -/
def scopedDepContent : Str := toL "Install `@types/node@18.0.0` first"

/-- Claim C9: the dependency extractor lower-cases the capture and keeps the
part before the FIRST at-sign; for a scoped package the capture starts with
an at-sign, so the empty string is added to `mentionedDependencies`,
violating the nonemptiness invariant. -/
theorem extractDependencies_adds_empty_string :
    extractDependencies scopedDepContent = [[]]
    ∧ ([] : Str) ∈ extractDependencies scopedDepContent := by
  decide

/-! ## Section parsing: partition and titles (claim C3) -/

/-- `sectionsChain secs lo hi` says the inclusive line ranges of `secs` are
consecutive and exactly cover the half-open interval `[lo, hi)`: the claimed
"no gaps and no overlaps" partition property. -/
def sectionsChain : List ParsedSection → Nat → Nat → Prop
  | [], lo, hi => lo = hi
  | s :: rest, lo, hi =>
    s.startLine = lo ∧ lo ≤ s.endLine ∧ s.endLine < hi ∧
      sectionsChain rest (s.endLine + 1) hi

/-- Index of the first heading line (the line count when there is none). -/
def firstHeadingIdx (lines : List Str) : Nat :=
  lines.findIdx (fun l => (headingMatch l).isSome)

lemma sectionsChain_congr {secs : List ParsedSection} {lo hi lo' hi' : Nat}
    (h : sectionsChain secs lo hi) (hlo : lo = lo') (hhi : hi = hi') :
    sectionsChain secs lo' hi' := by subst hlo; subst hhi; exact h

/-- The accumulator of `parseSectionsAux` is only appended to. -/
lemma parseSectionsAux_acc (lines : List Str) (i : Nat)
    (acc : List ParsedSection) (cur : Option ParsedSection) :
    parseSectionsAux lines i acc cur
      = acc ++ parseSectionsAux lines i [] cur := by
  induction lines generalizing i acc cur with
  | nil => cases cur <;> simp [parseSectionsAux]
  | cons line rest ih =>
    cases h : headingMatch line with
    | some t =>
      cases cur with
      | none =>
        simp only [parseSectionsAux, h]
        exact ih _ _ _
      | some c =>
        simp only [parseSectionsAux, h, List.nil_append]
        have h1 := ih (i + 1) (acc ++ [{ c with endLine := i - 1 }])
          (some { title := jsTrim t, content := [], startLine := i,
                  endLine := i })
        have h2 := ih (i + 1) [{ c with endLine := i - 1 }]
          (some { title := jsTrim t, content := [], startLine := i,
                  endLine := i })
        rw [h1, h2, List.append_assoc]
    | none =>
      cases cur with
      | none =>
        simp only [parseSectionsAux, h]
        exact ih _ _ _
      | some c =>
        simp only [parseSectionsAux, h]
        exact ih _ _ _

/-- The sections produced by the parsing loop chain over the interval from
the open section's start (or the first heading) to the end of the input. -/
lemma parseSectionsAux_chain (lines : List Str) :
    ∀ (i : Nat) (cur : Option ParsedSection),
      (∀ c, cur = some c → c.startLine < i) →
      sectionsChain (parseSectionsAux lines i [] cur)
        (match cur with
         | some c => c.startLine
         | none => i + firstHeadingIdx lines)
        (i + lines.length) := by
  induction lines with
  | nil =>
    intro i cur hcur
    cases cur with
    | none => simp [parseSectionsAux, sectionsChain, firstHeadingIdx]
    | some c =>
      have hlt := hcur c rfl
      simp only [parseSectionsAux, List.nil_append, List.length_nil]
      refine ⟨rfl, ?_, ?_, ?_⟩
      · show c.startLine ≤ i - 1
        omega
      · show i - 1 < i + 0
        omega
      · show sectionsChain [] ((i - 1) + 1) (i + 0)
        simp only [sectionsChain]
        omega
  | cons line rest ih =>
    intro i cur hcur
    have hlen : (line :: rest).length = rest.length + 1 := rfl
    cases h : headingMatch line with
    | some t =>
      have hnew : ∀ c : ParsedSection,
          (some { title := jsTrim t, content := [], startLine := i,
                  endLine := i } : Option ParsedSection) = some c →
            c.startLine < i + 1 := by
        intro c hc
        injection hc with hc
        subst hc
        exact Nat.lt_succ_self i
      have hch : sectionsChain
          (parseSectionsAux rest (i + 1) []
            (some { title := jsTrim t, content := [], startLine := i,
                    endLine := i }))
          i ((i + 1) + rest.length) :=
        ih (i + 1) _ hnew
      cases cur with
      | none =>
        simp only [parseSectionsAux, h]
        refine sectionsChain_congr hch ?_ ?_
        · show i = i + firstHeadingIdx (line :: rest)
          simp [firstHeadingIdx, List.findIdx_cons, h]
        · omega
      | some c =>
        have hlt := hcur c rfl
        simp only [parseSectionsAux, h]
        rw [parseSectionsAux_acc]
        simp only [List.nil_append, List.singleton_append]
        refine ⟨rfl, ?_, ?_, ?_⟩
        · show c.startLine ≤ i - 1
          omega
        · show i - 1 < i + (line :: rest).length
          simp only [hlen]
          omega
        · refine sectionsChain_congr hch ?_ ?_
          · show i = ({ c with endLine := i - 1 } : ParsedSection).endLine + 1
            show i = (i - 1) + 1
            omega
          · simp only [hlen]
            omega
    | none =>
      cases cur with
      | none =>
        simp only [parseSectionsAux, h]
        have hch : sectionsChain (parseSectionsAux rest (i + 1) [] none)
            ((i + 1) + firstHeadingIdx rest) ((i + 1) + rest.length) := by
          simpa using ih (i + 1) none (by simp)
        refine sectionsChain_congr hch ?_ ?_
        · show (i + 1) + firstHeadingIdx rest = i + firstHeadingIdx (line :: rest)
          simp only [firstHeadingIdx, List.findIdx_cons, h]
          simp
          omega
        · omega
      | some c =>
        have hlt := hcur c rfl
        simp only [parseSectionsAux, h]
        have hcur' : ∀ c' : ParsedSection,
            (some { c with content := c.content ++ line ++ ['\n'] }
              : Option ParsedSection) = some c' → c'.startLine < i + 1 := by
          intro c' hc
          injection hc with hc
          subst hc
          exact Nat.lt_succ_of_lt hlt
        have hch : sectionsChain
            (parseSectionsAux rest (i + 1) []
              (some { c with content := c.content ++ line ++ ['\n'] }))
            c.startLine ((i + 1) + rest.length) :=
          ih (i + 1) _ hcur'
        refine sectionsChain_congr hch rfl ?_
        omega

/-- Every produced section either finalizes the open section or starts at a
heading line, with its title the trimmed captured heading text. -/
lemma parseSectionsAux_titles (lines : List Str) :
    ∀ (i : Nat) (cur : Option ParsedSection) (s : ParsedSection),
      s ∈ parseSectionsAux lines i [] cur →
      (∃ c, cur = some c ∧ s.title = c.title ∧ s.startLine = c.startLine) ∨
      (∃ j t, j < lines.length ∧ headingMatch (lines.getD j []) = some t
        ∧ s.startLine = i + j ∧ s.title = jsTrim t) := by
  induction lines with
  | nil =>
    intro i cur s hs
    cases cur with
    | none => simp [parseSectionsAux] at hs
    | some c =>
      simp only [parseSectionsAux, List.nil_append, List.mem_singleton] at hs
      subst hs
      exact Or.inl ⟨c, rfl, rfl, rfl⟩
  | cons line rest ih =>
    intro i cur s hs
    cases h : headingMatch line with
    | some t =>
      cases cur with
      | none =>
        simp only [parseSectionsAux, h] at hs
        rcases ih (i + 1) _ s hs with ⟨c', hc', ht', hst'⟩ |
          ⟨j, t', hj, hm, hst, ht⟩
        · injection hc' with hc'
          subst hc'
          have ht2 : s.title = jsTrim t := ht'
          have hst2 : s.startLine = i := hst'
          exact Or.inr ⟨0, t, by simp, by simpa using h, by omega, ht2⟩
        · exact Or.inr ⟨j + 1, t', by simpa using hj, by simpa using hm,
            by omega, ht⟩
      | some c =>
        simp only [parseSectionsAux, h] at hs
        rw [parseSectionsAux_acc] at hs
        simp only [List.nil_append, List.singleton_append,
          List.mem_cons] at hs
        rcases hs with rfl | hs
        · exact Or.inl ⟨c, rfl, rfl, rfl⟩
        · rcases ih (i + 1) _ s hs with ⟨c', hc', ht', hst'⟩ |
            ⟨j, t', hj, hm, hst, ht⟩
          · injection hc' with hc'
            subst hc'
            have ht2 : s.title = jsTrim t := ht'
            have hst2 : s.startLine = i := hst'
            exact Or.inr ⟨0, t, by simp, by simpa using h, by omega, ht2⟩
          · exact Or.inr ⟨j + 1, t', by simpa using hj, by simpa using hm,
              by omega, ht⟩
    | none =>
      cases cur with
      | none =>
        simp only [parseSectionsAux, h] at hs
        rcases ih (i + 1) none s hs with ⟨c', hc', _, _⟩ |
          ⟨j, t', hj, hm, hst, ht⟩
        · cases hc'
        · exact Or.inr ⟨j + 1, t', by simpa using hj, by simpa using hm,
            by omega, ht⟩
      | some c =>
        simp only [parseSectionsAux, h] at hs
        rcases ih (i + 1) _ s hs with ⟨c', hc', ht', hst'⟩ |
          ⟨j, t', hj, hm, hst, ht⟩
        · injection hc' with hc'
          subst hc'
          have ht2 : s.title = c.title := ht'
          have hst2 : s.startLine = c.startLine := hst'
          exact Or.inl ⟨c, rfl, ht2, hst2⟩
        · exact Or.inr ⟨j + 1, t', by simpa using hj, by simpa using hm,
            by omega, ht⟩

/-- Claim C3 (amended): the sections partition the line range from the FIRST
heading line to the end of the document, with no gaps and no overlaps (the
empty partition when no heading exists; lines before the first heading
belong to no section), and each title equals the trimmed heading text
captured after the `#` marker. -/
theorem parseSections_partition_titles (lines : List Str) :
    sectionsChain (parseSections lines) (firstHeadingIdx lines) lines.length
    ∧ ∀ s ∈ parseSections lines,
        ∃ t, headingMatch (lines.getD s.startLine []) = some t
          ∧ s.title = jsTrim t := by
  constructor
  · have hch := parseSectionsAux_chain lines 0 none (by simp)
    exact sectionsChain_congr hch (by simp) (by simp)
  · intro s hs
    rcases parseSectionsAux_titles lines 0 none s hs with
      ⟨c, hc, _, _⟩ | ⟨j, t, hj, hm, hst, ht⟩
    · cases hc
    · refine ⟨t, ?_, ht⟩
      rw [hst]
      simpa using hm

/-- Claim C3, counterexample to the claim as stated: a one-line document
with no heading line produces no sections, so the sections do not partition
`[0, lines.length)`. -/
theorem parseSections_not_partition_of_whole_range :
    parseSections [toL "hello"] = []
    ∧ ¬ sectionsChain (parseSections [toL "hello"]) 0
        ([toL "hello"] : List Str).length := by
  refine ⟨by decide, ?_⟩
  intro hch
  rw [show parseSections [toL "hello"] = [] from by decide] at hch
  simp [sectionsChain] at hch


/-! ## Dependencies checker (src/checkers/dependencies.ts) -/

/-- The fixed deprecated-package table `DEPRECATED_PACKAGES`. -/
def DEPRECATED_PACKAGES : List (Str × Str) :=
  [(toL "request", toL "axios or node-fetch"),
   (toL "moment", toL "date-fns or dayjs"),
   (toL "lodash", toL "native JS methods or a smaller util"),
   (toL "tslint", toL "eslint with @typescript-eslint"),
   (toL "node-sass", toL "sass (Dart Sass)"),
   (toL "babel-eslint", toL "@babel/eslint-parser"),
   (toL "eslint-plugin-prettier", toL "prettier via editor integration"),
   (toL "react-scripts", toL "vite or create-vite"),
   (toL "webpack", toL "vite (unless legacy)")]

/-- The allowlist of generic framework names exempt from the
missing-dependency check. -/
def commonFrameworks : List Str :=
  [toL "react", toL "angular", toL "vue", toL "node", toL "typescript",
   toL "javascript"]

/-- Best-effort 1-based line attribution
(JavaScript `findIndex` plus the `>= 0` guard). -/
def findLineNum (lines : List Str) (p : Str → Bool) : Option Nat :=
  match lines.findIdx? p with
  | some j => some (j + 1)
  | none => none

/-- The trimmed text of the first line satisfying `p`, used as context. -/
def findLineContext (lines : List Str) (p : Str → Bool) : Option Str :=
  (lines.findIdx? p).map (fun j => jsTrim (lines.getD j []))

/-- JavaScript `replace(/^@types\//, "")`. -/
def dropTypesScope (s : Str) : Str :=
  if hasPref (toL "@types/") s then s.drop 7 else s

/-- The message of a missing-dependency issue. -/
def missingDepMsg (dep : Str) : Str :=
  toL "Package \"" ++ dep ++ toL "\" is mentioned but not found in package.json"

/-- The message of a deprecated-dependency issue. -/
def deprecatedDepMsg (dep : Str) : Str :=
  toL "Package \"" ++ dep ++ toL "\" is deprecated"

/-- The missing-dependency issue for one mentioned dependency. -/
def mkMissingDepIssue (lines : List Str) (dep : Str) : LintIssue :=
  { rule := toL "no-missing-dependency",
    severity := .warn,
    message := missingDepMsg dep,
    line := findLineNum lines (fun l => containsSub (lowerS l) (lowerS dep)),
    suggestion := some (toL "Either add \"" ++ dep ++
      toL "\" to package.json or remove the reference from this context file") }

/-- One step of the mentioned-dependency loop; the accumulator is
(issues, passed, failed). -/
def mentionedDepStep (allDeps : List Str) (ignorePats : List Str)
    (lines : List Str) (acc : List LintIssue × Nat × Nat) (dep : Str) :
    List LintIssue × Nat × Nat :=
  if ignorePats.any (fun p => containsSub dep p) then acc
  else
    let normalized := dropTypesScope (lowerS dep)
    let declared := decide (dep ∈ allDeps)
      || decide ((toL "@types/" ++ dep) ∈ allDeps)
      || allDeps.any (fun d => containsSub (lowerS d) normalized)
    if declared then (acc.1, acc.2.1 + 1, acc.2.2)
    else if lowerS dep ∈ commonFrameworks then acc
    else (acc.1 ++ [mkMissingDepIssue lines dep], acc.2.1, acc.2.2 + 1)

/-- The deprecated-dependency issue for one table entry. -/
def mkDeprecatedDepIssue (lines : List Str) (sev : Severity) (dep repl : Str) :
    LintIssue :=
  { rule := toL "deprecated-dependency",
    severity := sev,
    message := deprecatedDepMsg dep,
    line := findLineNum lines (fun l => containsSub l dep),
    suggestion := some (toL "Consider migrating to: " ++ repl) }

/-- The deprecated-package loop of `checkDependencies`. -/
def deprecatedIssuesOf (allDeps : List Str) (lines : List Str)
    (sev : Severity) : List LintIssue :=
  DEPRECATED_PACKAGES.filterMap
    (fun dr => if dr.1 ∈ allDeps then
        some (mkDeprecatedDepIssue lines sev dr.1 dr.2)
      else none)

/-- `checkDependencies` from src/checkers/dependencies.ts. The manifest is
`none` when package.json is absent or malformed (both degrade to the empty
result in the source). -/
def checkDependencies (parsed : ParsedAgentsMd) (pkg : Option Pkg)
    (config : LintConfig := {}) : CheckResult :=
  match pkg with
  | none =>
    { checker := toL "dependencies", issues := [], passed := 0, failed := 0 }
  | some p =>
    let staleSev := config.staleDependencySeverity.getD .info
    let ignorePats := config.ignorePatterns.getD []
    let allDeps := setOfList
      (p.dependencies ++ p.devDependencies ++ p.peerDependencies)
    let m := parsed.mentionedDependencies.foldl
      (mentionedDepStep allDeps ignorePats parsed.lines) ([], 0, 0)
    { checker := toL "dependencies",
      issues := m.1 ++ deprecatedIssuesOf allDeps parsed.lines staleSev,
      passed := m.2.1,
      failed := m.2.2 }

/-! ## Structure checker (src/checkers/structure.ts) -/

/-- One recommended-section table row. -/
structure RecommendedSection where
  keywords : List Str
  rule : Str
  message : Str
  suggestion : Str
  severity : Severity

/-- The `RECOMMENDED_SECTIONS` table. -/
def RECOMMENDED_SECTIONS : List RecommendedSection :=
  [{ keywords := [toL "setup", toL "install", toL "getting started",
       toL "quick start", toL "prerequisites"],
     rule := toL "missing-setup-section",
     message := toL "No setup/installation section found",
     suggestion := toL "Add a \"Setup\" or \"Getting Started\" section explaining how to install dependencies and configure the environment.",
     severity := .warn },
   { keywords := [toL "test", toL "testing", toL "run tests",
       toL "unit test", toL "e2e"],
     rule := toL "missing-test-section",
     message := toL "No testing section found — agents need to know how to run tests to verify their changes",
     suggestion := toL "Add a \"Testing\" section with the exact commands to run tests (e.g., `npm test` or `npm run test:unit`).",
     severity := .warn },
   { keywords := [toL "build", toL "compile", toL "bundle"],
     rule := toL "missing-build-section",
     message := toL "No build section found",
     suggestion := toL "Add a \"Build\" section with the command to build the project (e.g., `npm run build`).",
     severity := .info }]

/-- JavaScript `replace(/\s+/g, "-")`, tracking whether the previous
character was whitespace. -/
def wsToDashAux : Bool → Str → Str
  | _, [] => []
  | prevWs, c :: rest =>
    if isWs c then
      (if prevWs then wsToDashAux true rest else '-' :: wsToDashAux true rest)
    else c :: wsToDashAux false rest

/-- JavaScript `replace(/\s+/g, "-")`. -/
def wsToDash (s : Str) : Str := wsToDashAux false s

/-- The table row for one configured required section. -/
def customSectionEntry (sev : Severity) (name : Str) : RecommendedSection :=
  { keywords := [lowerS name],
    rule := toL "missing-custom-section-" ++ wsToDash (lowerS name),
    message := toL "Required section \"" ++ name ++ toL "\" not found",
    suggestion := toL "Add a \"" ++ name ++
      toL "\" section as required by your .agents-lint.json config.",
    severity := sev }

/-- Count of the case-insensitive non-overlapping matches of
`TODO|FIXME|XXX|HACK`. -/
def countTodoMatches (content : Str) : Nat :=
  (scanAll (fun _ s =>
    match ([toL "TODO", toL "FIXME", toL "XXX", toL "HACK"].filter
        (fun w => hasPrefCI w s)).head? with
    | some w => some (s.take w.length, w.length)
    | none => none) content).length

/-- A match of `\b(201[0-9]|202[0-3])\b` at index `i`. -/
def oldYearAt (content : Str) (i : Nat) : Bool :=
  wordBoundaryBefore content i &&
    (match content.drop i with
     | c1 :: c2 :: c3 :: c4 :: _ =>
       ((c1 = '2') && (c2 = '0') && (c3 = '1') && isDigitCh c4
         || (c1 = '2') && (c2 = '0') && (c3 = '2') && ('0' ≤ c4) && (c4 ≤ '3')) &&
       (match (content.drop (i + 4)).head? with
        | none => true
        | some c => ! isWordChar c)
     | _ => false)

/-- Test of `\b(201[0-9]|202[0-3])\b` over the whole content. -/
def hasOldYear (content : Str) : Bool :=
  (List.range (content.length + 1)).any (fun i => oldYearAt content i)

/-- One quality-check table row. -/
structure QualityCheck where
  check : ParsedAgentsMd → Bool
  rule : Str
  severity : Severity
  message : Str
  suggestion : Str

/-- The `QUALITY_CHECKS` table. -/
def QUALITY_CHECKS : List QualityCheck :=
  [{ check := fun parsed => decide (parsed.rawContent.length < 100),
     rule := toL "too-short", severity := .warn,
     message := toL "Context file is very short (< 100 characters) — agents may lack sufficient context",
     suggestion := toL "Add more context about your project structure, conventions, and workflows." },
   { check := fun parsed => decide (15000 < parsed.rawContent.length),
     rule := toL "too-long", severity := .info,
     message := toL "Context file is very long (> 15,000 characters) — context bloat increases cost by 20%+",
     suggestion := toL "Trim to only non-discoverable information. Remove sections that describe things agents can infer from code." },
   { check := fun parsed => decide (3 < countTodoMatches parsed.rawContent),
     rule := toL "too-many-todos", severity := .info,
     message := toL "Context file contains multiple TODO/FIXME markers — stale notes can mislead agents",
     suggestion := toL "Resolve TODOs or remove them from AGENTS.md. Outdated notes are worse than no notes." },
   { check := fun parsed => hasOldYear parsed.rawContent,
     rule := toL "old-year-reference", severity := .info,
     message := toL "Context file references years before 2024 — may contain stale information",
     suggestion := toL "Review and update any time-sensitive references." }]

/-- `checkStructure` from src/checkers/structure.ts. -/
def checkStructure (parsed : ParsedAgentsMd) (config : LintConfig := {}) :
    CheckResult :=
  let missingSectionSeverity := config.missingSectionSeverity.getD .warn
  let sectionsToCheck := RECOMMENDED_SECTIONS ++
    (config.requiredSections.getD []).map
      (customSectionEntry missingSectionSeverity)
  let sectionTitles := parsed.sections.map (fun s => lowerS s.title)
  let contentLower := lowerS parsed.rawContent
  let m := sectionsToCheck.foldl
    (fun (acc : List LintIssue × Nat) rsec =>
      let found := rsec.keywords.any (fun kw =>
        sectionTitles.any (fun t => containsSub t kw)
          || containsSub contentLower kw)
      if found then (acc.1, acc.2 + 1)
      else (acc.1 ++ [{ rule := rsec.rule, severity := missingSectionSeverity,
                        message := rsec.message,
                        suggestion := some rsec.suggestion }], acc.2))
    ([], 0)
  let m2 := QUALITY_CHECKS.foldl
    (fun (acc : List LintIssue × Nat) qc =>
      if qc.check parsed then
        (acc.1 ++ [{ rule := qc.rule, severity := qc.severity,
                     message := qc.message,
                     suggestion := some qc.suggestion }], acc.2)
      else (acc.1, acc.2 + 1))
    m
  { checker := toL "structure", issues := m2.1, passed := m2.2,
    failed := m2.1.length }

/-! ## Filesystem checker (src/checkers/filesystem.ts)

The filesystem ground truth is abstracted by an oracle `existsAt` standing
for `fs.existsSync` composed with the resolution of a repository-relative
path against `repoRoot`. -/

/-- The missing-path issue. -/
def mkMissingPathIssue (lines : List Str) (p : Str) : LintIssue :=
  { rule := toL "no-missing-path",
    severity := .error,
    message := toL "Path does not exist: \"" ++ p ++ toL "\"",
    line := findLineNum lines (fun l => containsSub l p),
    context := findLineContext lines (fun l => containsSub l p),
    suggestion := some (toL "Remove this reference or update it to the correct path. Did the directory get renamed or deleted?") }

/-- The conventional top-level directory names checked separately. -/
def commonDirs : List Str :=
  [toL "src", toL "lib", toL "dist", toL "build", toL "packages", toL "apps"]

/-- A line mentioning the conventional directory `dir`. -/
def dirMention (dir : Str) (l : Str) : Bool :=
  containsSub l (toL "/" ++ dir ++ toL "/") || containsSub l (toL "./" ++ dir)

/-- The missing-conventional-directory issue. -/
def mkMissingDirIssue (lines : List Str) (dir : Str) : LintIssue :=
  { rule := toL "no-missing-directory",
    severity := .warn,
    message := toL "Directory \"/" ++ dir ++
      toL "\" is referenced but does not exist in the repo root",
    line := findLineNum lines (dirMention dir),
    context := findLineContext lines (dirMention dir),
    suggestion := some (toL "Check if the project structure has changed since this AGENTS.md was written.") }

/-- One step of the mentioned-path loop of `checkFilesystem`; the
accumulator is (issues, passed, failed). -/
def fsPathStep (lines : List Str) (existsAt : Str → Bool)
    (acc : List LintIssue × Nat × Nat) (p : Str) :
    List LintIssue × Nat × Nat :=
  if hasPref (toL "http") p || hasPref (toL "$") p then acc
  else if existsAt p then (acc.1, acc.2.1 + 1, acc.2.2)
  else (acc.1 ++ [mkMissingPathIssue lines p], acc.2.1, acc.2.2 + 1)

/-- One step of the conventional-directory loop of `checkFilesystem`. -/
def fsDirStep (lines : List Str) (existsAt : Str → Bool)
    (issues : List LintIssue) (dir : Str) : List LintIssue :=
  let mentions := lines.filter (dirMention dir)
  if mentions.length ≠ 0 && ! existsAt dir then
    let alreadyReported :=
      issues.any (fun i => containsSub i.message (toL "/" ++ dir))
    if alreadyReported then issues
    else issues ++ [mkMissingDirIssue lines dir]
  else issues

/-- `checkFilesystem` from src/checkers/filesystem.ts. -/
def checkFilesystem (parsed : ParsedAgentsMd) (existsAt : Str → Bool) :
    CheckResult :=
  let m := parsed.mentionedPaths.foldl
    (fsPathStep parsed.lines existsAt) ([], 0, 0)
  let issues2 := commonDirs.foldl (fsDirStep parsed.lines existsAt) m.1
  { checker := toL "filesystem", issues := issues2, passed := m.2.1,
    failed := m.2.2 }

/-! ## npm-scripts checker (src/checkers/npm-scripts.ts)

The discovered manifests are abstracted as the list of their script tables
(one entry per discovered package.json file; a malformed file contributes an
empty table but still counts as discovered). -/

/-- The missing-script issue. -/
def mkMissingScriptIssue (lines : List Str) (allScripts : List Str)
    (s : Str) : LintIssue :=
  let p := fun l => containsSub l (toL "run " ++ s)
    || containsSub l (toL "yarn " ++ s) || containsSub l (toL "pnpm " ++ s)
  { rule := toL "no-missing-script",
    severity := .warn,
    message := toL "Script \"" ++ s ++
      toL "\" is mentioned but not found in any package.json",
    line := findLineNum lines p,
    context := findLineContext lines p,
    suggestion := some (toL "Available scripts: " ++
      List.intercalate (toL ", ") (allScripts.take 5) ++
      (if 5 < allScripts.length then toL "..." else [])) }

/-- The missing-test-script issue. -/
def missingTestScriptIssue : LintIssue :=
  { rule := toL "missing-test-script", severity := .warn,
    message := toL "No test script found in package.json — coding agents need a test command to verify their work",
    suggestion := some (toL "Add a \"test\" script to package.json so agents can validate their changes automatically") }

/-- One step of the mentioned-script loop of `checkNpmScripts`. -/
def npmScriptStep (lines : List Str) (allScripts : List Str)
    (acc : List LintIssue × Nat × Nat) (s : Str) :
    List LintIssue × Nat × Nat :=
  if s ∈ allScripts then (acc.1, acc.2.1 + 1, acc.2.2)
  else (acc.1 ++ [mkMissingScriptIssue lines allScripts s],
    acc.2.1, acc.2.2 + 1)

/-- `checkNpmScripts` from src/checkers/npm-scripts.ts. -/
def checkNpmScripts (parsed : ParsedAgentsMd) (manifests : List (List Str)) :
    CheckResult :=
  let allScripts := setOfList manifests.flatten
  if manifests.length = 0 then
    { checker := toL "npm-scripts", issues := [], passed := 0, failed := 0 }
  else
    let m := parsed.mentionedScripts.foldl
      (npmScriptStep parsed.lines allScripts) ([], 0, 0)
    let hasTest := decide ((toL "test") ∈ allScripts)
      || decide ((toL "test:unit") ∈ allScripts)
      || decide ((toL "test:run") ∈ allScripts)
    { checker := toL "npm-scripts",
      issues := if hasTest then m.1 else m.1 ++ [missingTestScriptIssue],
      passed := if hasTest then m.2.1 + 1 else m.2.1,
      failed := m.2.2 }


/-! ## Framework-staleness checker (src/checkers/framework.ts) -/

/-- One framework staleness check: a concrete regex test plus metadata. -/
structure FrameworkCheck where
  pat : Str → Bool
  rule : Str
  message : Str
  suggestion : Str

/-- Existential position scan helper. -/
def anyPos (content : Str) (p : Nat → Bool) : Bool :=
  (List.range (content.length + 1)).any p

/-- A match of `ivy\s+compat` (case-insensitive) at index `i`. -/
def ivyCompatAt (content : Str) (i : Nat) : Bool :=
  let s := content.drop i
  hasPrefCI (toL "ivy") s &&
    (let r := s.drop 3
     let ws := r.takeWhile isWs
     decide (1 ≤ ws.length) && hasPrefCI (toL "compat") (r.drop ws.length))

/-- A match of `enableIvy:\s*false` at index `i`. -/
def enableIvyAt (content : Str) (i : Nat) : Bool :=
  let s := content.drop i
  hasPref (toL "enableIvy:") s &&
    (let r := s.drop 10
     hasPref (toL "false") (r.drop (r.takeWhile isWs).length))

/-- A whole-word match of `w` at index `i` (leading and trailing `\b`). -/
def wordAtWithEnd (content : Str) (w : Str) (i : Nat) : Bool :=
  wordBoundaryBefore content i && hasPref w (content.drop i) &&
    (match (content.drop (i + w.length)).head? with
     | none => true
     | some c => ! isWordChar c)

/-- The digit group `(1[0-5]|[0-9])\.` of the old-Node-version pattern. -/
def nodeVerDigits (s : Str) : Bool :=
  (match s with
   | '1' :: c :: r => ('0' ≤ c) && (c ≤ '5') && hasPref (toL ".") r
   | _ => false) ||
  (match s with
   | c :: r => isDigitCh c && hasPref (toL ".") r
   | [] => false)

/-- A match of `node\s+v?(1[0-5]|[0-9])\.` (case-insensitive) at index `i`. -/
def oldNodeAt (content : Str) (i : Nat) : Bool :=
  let s := content.drop i
  hasPrefCI (toL "node") s &&
    (let r := s.drop 4
     let ws := r.takeWhile isWs
     decide (1 ≤ ws.length) &&
       (match r.drop ws.length with
        | c :: rest =>
          if (c = 'v') || (c = 'V') then nodeVerDigits rest
          else nodeVerDigits (c :: rest)
        | [] => false))

/-- The digit group `(5|6)\.` of the old-npm-version pattern. -/
def npmVerDigits (s : Str) : Bool :=
  match s with
  | c :: r => ((c = '5') || (c = '6')) && hasPref (toL ".") r
  | [] => false

/-- A match of `npm\s+v?(5|6)\.` (case-insensitive) at index `i`. -/
def oldNpmAt (content : Str) (i : Nat) : Bool :=
  let s := content.drop i
  hasPrefCI (toL "npm") s &&
    (let r := s.drop 3
     let ws := r.takeWhile isWs
     decide (1 ≤ ws.length) &&
       (match r.drop ws.length with
        | c :: rest =>
          if (c = 'v') || (c = 'V') then npmVerDigits rest
          else npmVerDigits (c :: rest)
        | [] => false))

/-- The `FRAMEWORK_CHECKS` table, with each regex realized concretely. -/
def FRAMEWORK_CHECKS : List (Str × List FrameworkCheck) :=
  [(toL "angular",
    [{ pat := fun c => containsSub c (toL "NgModule")
         || containsSub c (toL "@NgModule"),
       rule := toL "angular-ngmodule-deprecated",
       message := toL "References NgModules — Angular 14+ uses standalone components by default",
       suggestion := toL "Update AGENTS.md to reflect standalone component architecture. NgModules are being phased out in modern Angular." },
     { pat := fun c => containsSub (lowerS c) (toL "ngcc")
         || anyPos c (ivyCompatAt c),
       rule := toL "angular-ngcc-deprecated",
       message := toL "References ngcc (Angular Compatibility Compiler) — removed in Angular v16+",
       suggestion := toL "Remove ngcc references. Only full Ivy is supported in modern Angular." },
     { pat := fun c => anyPos c (enableIvyAt c),
       rule := toL "angular-ivy-disabled",
       message := toL "References disabling Ivy renderer — not supported in Angular 13+",
       suggestion := toL "Remove enableIvy: false. Ivy is the only renderer in modern Angular." },
     { pat := fun c => anyPos c (wordAtWithEnd c (toL "promiseToObservable"))
         || anyPos c (fun i => wordBoundaryBefore c i
              && hasPref (toL "toPromise()") (c.drop i)),
       rule := toL "angular-topromise-deprecated",
       message := toL "References .toPromise() — deprecated in RxJS 7, removed in RxJS 8",
       suggestion := toL "Replace .toPromise() with firstValueFrom() or lastValueFrom() from rxjs" }]),
   (toL "react",
    [{ pat := fun c => containsSub c (toL "componentDidMount")
         || containsSub c (toL "componentWillMount")
         || containsSub c (toL "componentWillUnmount")
         || containsSub c (toL "componentDidUpdate"),
       rule := toL "react-class-lifecycle",
       message := toL "References class component lifecycle methods — React 18+ recommends hooks",
       suggestion := toL "Consider updating AGENTS.md to use hooks (useEffect, useState) instead of class lifecycle methods." },
     { pat := fun c => containsSub c (toL "ReactDOM.render("),
       rule := toL "react-legacy-render",
       message := toL "References ReactDOM.render() — deprecated in React 18, removed in React 19",
       suggestion := toL "Replace ReactDOM.render() with createRoot().render() from react-dom/client" },
     { pat := fun c => containsSub c (toL "componentWillMount")
         || containsSub c (toL "UNSAFE_componentWillMount"),
       rule := toL "react-unsafe-lifecycle",
       message := toL "References unsafe lifecycle methods",
       suggestion := toL "Use useEffect hook instead." }]),
   (toL "next",
    [{ pat := fun c => containsSub c (toL "getInitialProps"),
       rule := toL "nextjs-getinitialprops-legacy",
       message := toL "References getInitialProps — legacy API, prefer getStaticProps/getServerSideProps or App Router",
       suggestion := toL "Migrate to getStaticProps, getServerSideProps, or the Next.js App Router." },
     { pat := fun c => containsSub c (toL "pages/_app")
         || containsSub c (toL "pages/_document"),
       rule := toL "nextjs-pages-router",
       message := toL "References Pages Router patterns — Next.js 13+ recommends App Router",
       suggestion := toL "Consider if this project has migrated or plans to migrate to App Router." }]),
   (toL "node",
    [{ pat := fun c => containsSub c (toL "require(" ++ [apos])
         || containsSub c (toL "require(\"")
         || containsSub c (toL "module.exports"),
       rule := toL "node-commonjs-in-esm-project",
       message := toL "References CommonJS (require/module.exports) syntax",
       suggestion := toL "If this is an ESM project, update AGENTS.md to use import/export syntax." }])]

/-- The two framework-agnostic version checks. -/
def GENERAL_CHECKS : List FrameworkCheck :=
  [{ pat := fun c => anyPos c (oldNodeAt c),
     rule := toL "old-node-version",
     message := toL "References an outdated Node.js version (< 16)",
     suggestion := toL "Update to Node.js 20 LTS or later. Node 18+ is required for many modern tools." },
   { pat := fun c => anyPos c (oldNpmAt c),
     rule := toL "old-npm-version",
     message := toL "References an outdated npm version (< 7)",
     suggestion := toL "Update npm to v9+ or consider migrating to pnpm or bun." }]

/-- `detectFrameworks` from src/checkers/framework.ts, over the parsed
manifest (`none` when package.json is absent or malformed; in both cases the
source returns no detected framework). -/
def detectFrameworks (pkg : Option Pkg) : List Str :=
  match pkg with
  | none => []
  | some p =>
    let allDeps := p.dependencies ++ p.devDependencies
    let d := (if (toL "@angular/core") ∈ allDeps then [toL "angular"] else [])
      ++ (if (toL "react") ∈ allDeps then [toL "react"] else [])
      ++ (if (toL "next") ∈ allDeps then [toL "next"] else [])
      ++ (if (toL "vue") ∈ allDeps then [toL "vue"] else [])
      ++ (if (toL "nuxt") ∈ allDeps then [toL "nuxt"] else [])
      ++ (if (toL "svelte") ∈ allDeps then [toL "svelte"] else [])
    if d.length = 0 then [toL "node"] else d

/-- A framework-specific staleness issue (with context). -/
def mkFrameworkIssue (lines : List Str) (fc : FrameworkCheck) : LintIssue :=
  { rule := fc.rule, severity := .warn, message := fc.message,
    line := findLineNum lines fc.pat,
    context := findLineContext lines fc.pat,
    suggestion := some fc.suggestion }

/-- A framework-agnostic staleness issue (no context field). -/
def mkGeneralIssue (lines : List Str) (fc : FrameworkCheck) : LintIssue :=
  { rule := fc.rule, severity := .warn, message := fc.message,
    line := findLineNum lines fc.pat,
    suggestion := some fc.suggestion }

/-- `checkFrameworkStaleness` from src/checkers/framework.ts. -/
def checkFrameworkStaleness (parsed : ParsedAgentsMd) (pkg : Option Pkg) :
    CheckResult :=
  let detected := detectFrameworks pkg
  let m := detected.foldl
    (fun (acc : List LintIssue × Nat) fw =>
      let checks :=
        (((FRAMEWORK_CHECKS.filter (fun e => e.1 = fw)).head?).map
          Prod.snd).getD []
      checks.foldl
        (fun (acc2 : List LintIssue × Nat) fc =>
          if fc.pat parsed.rawContent then
            (acc2.1 ++ [mkFrameworkIssue parsed.lines fc], acc2.2)
          else (acc2.1, acc2.2 + 1))
        acc)
    ([], 0)
  let issues2 := GENERAL_CHECKS.foldl
    (fun (issues : List LintIssue) fc =>
      if fc.pat parsed.rawContent then
        issues ++ [mkGeneralIssue parsed.lines fc]
      else issues)
    m.1
  { checker := toL "framework-staleness", issues := issues2, passed := m.2,
    failed := issues2.length }

/-! ## Cross-document consistency checker (src/checkers/cross.ts) -/

/-- One context document paired with its repository-relative label. -/
structure FileContext where
  relativePath : Str
  parsed : ParsedAgentsMd

/-- A match of an invocation pattern `\b<runner>\s+(<verbs>)\b` at `i`. -/
def pmInvocationAt (runner : Str) (verbs : List Str) (content : Str)
    (i : Nat) : Bool :=
  wordBoundaryBefore content i && hasPref runner (content.drop i) &&
    (let r := (content.drop i).drop runner.length
     let ws := r.takeWhile isWs
     decide (1 ≤ ws.length) &&
       (match (verbs.filter (fun v => hasPref v (r.drop ws.length))).head? with
        | some v =>
          (match ((r.drop ws.length).drop v.length).head? with
           | none => true
           | some c => ! isWordChar c)
        | none => false))

/-- `detectPM` from src/checkers/cross.ts: the first of the four
package-manager invocation patterns matching the content. -/
def detectPM (content : Str) : Option Str :=
  if anyPos content
      (pmInvocationAt (toL "bun") [toL "install", toL "add", toL "run"]
        content) then some (toL "bun")
  else if anyPos content
      (pmInvocationAt (toL "pnpm") [toL "install", toL "add", toL "run"]
        content) then some (toL "pnpm")
  else if anyPos content
      (pmInvocationAt (toL "yarn") [toL "install", toL "add", toL "run"]
        content) then some (toL "yarn")
  else if anyPos content
      (pmInvocationAt (toL "npm") [toL "install", toL "run", toL "ci"]
        content) then some (toL "npm")
  else none

/-- Role matcher allowing a `:suffix` (the `(?::.*)?$` form). -/
def roleMatchColon (bases : List Str) (s : Str) : Bool :=
  bases.any (fun b => (lowerS s = b) || hasPref (b ++ [':']) (lowerS s))

/-- Role matcher requiring an exact (case-insensitive) name. -/
def roleMatchExact (bases : List Str) (s : Str) : Bool :=
  bases.any (fun b => lowerS s = b)

/-- The `SCRIPT_ROLES` table. -/
def SCRIPT_ROLES : List (Str × (Str → Bool)) :=
  [(toL "test", roleMatchColon [toL "test", toL "e2e", toL "spec",
     toL "cypress", toL "jest", toL "vitest"]),
   (toL "build", roleMatchColon [toL "build", toL "compile", toL "bundle"]),
   (toL "lint", roleMatchColon [toL "lint", toL "eslint", toL "check"]),
   (toL "dev", roleMatchExact [toL "dev", toL "development", toL "start",
     toL "serve"])]

/-- `getRole` from src/checkers/cross.ts. -/
def getRole (script : Str) : Option Str :=
  ((SCRIPT_ROLES.filter (fun rr => rr.2 script)).head?).map Prod.fst

/-- The deduplicated scripts of one role (one `groupByRole` map entry). -/
def roleScripts (scripts : List Str) (role : Str) : List Str :=
  setOfList (scripts.filter (fun s => getRole s = some role))

/-- The role keys of one script list, in map-insertion order. -/
def roleKeys (scripts : List Str) : List Str :=
  setOfList (scripts.filterMap getRole)

/-- The cross-pm-conflict issue. -/
def mkPmConflictIssue (pmByFile : List (Str × Option Str)) : LintIssue :=
  { rule := toL "cross-pm-conflict", severity := .error,
    message := toL "Conflicting package managers referenced across context files",
    context := some (List.intercalate (toL ", ")
      (pmByFile.filterMap
        (fun fp => fp.2.map (fun pm => fp.1 ++ toL " → " ++ pm)))),
    suggestion := some (toL "Pick one package manager and update all context files to use it consistently.") }

/-- The cross-script-conflict issue for one role. -/
def mkRoleConflictIssue (role : Str) (filesWithRole : List (Str × List Str)) :
    LintIssue :=
  { rule := toL "cross-script-conflict-" ++ role, severity := .warn,
    message := toL "Conflicting " ++ role ++
      toL " commands across context files",
    context := some (List.intercalate (toL " vs ")
      (filesWithRole.map (fun fr =>
        fr.1 ++ toL " → " ++ List.intercalate (toL ", ") fr.2))),
    suggestion := some (toL "Agents reading different files will use different "
      ++ role ++ toL " commands. Align them to use the same command.") }

/-- The cross-path-asymmetry issue. -/
def mkPathAsymmetryIssue (p : Str) (rel : Str) (others2 : Str) : LintIssue :=
  { rule := toL "cross-path-asymmetry", severity := .info,
    message := toL "Path \"" ++ p ++ toL "\" referenced in " ++ rel ++
      toL " but not in " ++ others2,
    suggestion := some (toL "Consider documenting this path in all context files, or verify it is still relevant.") }

/-- Number of nonempty slash-separated segments of a path. -/
def pathSegments (p : Str) : Nat :=
  ((p.splitOn '/').filter (fun seg => seg ≠ [])).length

/-- `checkCrossConsistency` from src/checkers/cross.ts. -/
def checkCrossConsistency (files : List FileContext) : CheckResult :=
  if files.length < 2 then
    { checker := toL "cross-consistency", issues := [], passed := 0,
      failed := 0 }
  else
    let pmByFile := files.map
      (fun f => (f.relativePath, detectPM f.parsed.rawContent))
    let distinctPMs := setOfList (pmByFile.filterMap Prod.snd)
    let m1 : List LintIssue × Nat :=
      if 1 < distinctPMs.length then ([mkPmConflictIssue pmByFile], 0)
      else ([], 1)
    let rolesByFile := files.map
      (fun f => (f.relativePath, f.parsed.mentionedScripts))
    let allRoles := setOfList
      ((files.map (fun f => roleKeys f.parsed.mentionedScripts)).flatten)
    let m2 := allRoles.foldl
      (fun (acc : List LintIssue × Nat) role =>
        let filesWithRole := rolesByFile.filterMap (fun fr =>
          let scr := roleScripts fr.2 role
          if scr.length ≠ 0 then some (fr.1, scr) else none)
        if filesWithRole.length < 2 then acc
        else
          let allScr := setOfList ((filesWithRole.map Prod.snd).flatten)
          if 1 < allScr.length then
            (acc.1 ++ [mkRoleConflictIssue role filesWithRole], acc.2)
          else (acc.1, acc.2 + 1))
      m1
    let m3 := files.foldl
      (fun (acc : List LintIssue × Nat × Nat) file =>
        if 5 ≤ acc.2.2 then acc
        else
          let others := setOfList
            (((files.filter (fun f => f.relativePath ≠ file.relativePath)).map
              (fun f => f.parsed.mentionedPaths)).flatten)
          let inner : List LintIssue × Nat := file.parsed.mentionedPaths.foldl
            (fun (acc2 : List LintIssue × Nat) p =>
              if 5 ≤ acc2.2 then acc2
              else if pathSegments p < 3 then acc2
              else if others.any (fun op => (op = p)
                  || hasPref (op ++ ['/']) p || hasPref (p ++ ['/']) op) then
                acc2
              else
                let others2 := List.intercalate (toL ", ")
                  ((files.filter
                    (fun f => f.relativePath ≠ file.relativePath)).map
                      (fun f => f.relativePath))
                (acc2.1 ++ [mkPathAsymmetryIssue p file.relativePath others2],
                 acc2.2 + 1))
            (acc.1, acc.2.2)
          (inner.1, (if inner.2 = 0 then acc.2.1 + 1 else acc.2.1), inner.2))
      (m2.1, m2.2, 0)
    { checker := toL "cross-consistency", issues := m3.1, passed := m3.2.1,
      failed := m3.1.length }


/-! ## Set-membership helpers -/

lemma mem_foldl_setAdd (l acc : List Str) (x : Str) :
    x ∈ l.foldl setAdd acc ↔ x ∈ acc ∨ x ∈ l := by
  induction l generalizing acc with
  | nil => simp
  | cons a l ih =>
    rw [List.foldl_cons, ih, mem_setAdd, List.mem_cons]
    tauto

lemma mem_setOfList {l : List Str} {x : Str} : x ∈ setOfList l ↔ x ∈ l := by
  unfold setOfList
  rw [mem_foldl_setAdd]
  simp

/-! ## Claim C7: the deprecated-dependency issue -/

lemma deprecatedDepMsg_inj {a b : Str} (h : deprecatedDepMsg a = deprecatedDepMsg b) :
    a = b := by
  unfold deprecatedDepMsg at h
  have h1 := List.append_cancel_right h
  exact List.append_cancel_left h1

/-- The predicate picking the deprecated-dependency issue of one package. -/
def isDeprecatedIssueFor (name : Str) (i : LintIssue) : Bool :=
  i.rule = toL "deprecated-dependency" && i.message = deprecatedDepMsg name

lemma isDeprecatedIssueFor_mk (name : Str) (lines : List Str)
    (sev : Severity) (d r : Str) :
    isDeprecatedIssueFor name (mkDeprecatedDepIssue lines sev d r)
      = decide (d = name) := by
  by_cases h : d = name
  · subst h
    simp [isDeprecatedIssueFor, mkDeprecatedDepIssue]
  · have hmsg : deprecatedDepMsg d ≠ deprecatedDepMsg name :=
      fun hc => h (deprecatedDepMsg_inj hc)
    simp [isDeprecatedIssueFor, mkDeprecatedDepIssue, h, hmsg]

lemma mentionedDepStep_issue_mem (allDeps ignorePats lines : List Str)
    (acc : List LintIssue × Nat × Nat) (d : Str) :
    ∀ i ∈ (mentionedDepStep allDeps ignorePats lines acc d).1,
      i ∈ acc.1 ∨ i.rule = toL "no-missing-dependency" := by
  intro i hi
  simp only [mentionedDepStep] at hi
  split_ifs at hi
  · exact Or.inl hi
  · exact Or.inl hi
  · exact Or.inl hi
  · have hi' : i ∈ acc.1 ++ [mkMissingDepIssue lines d] := hi
    rcases List.mem_append.mp hi' with h | h
    · exact Or.inl h
    · rw [List.mem_singleton] at h
      subst h
      exact Or.inr rfl

lemma mentionedDep_foldl_issue_mem (allDeps ignorePats lines : List Str)
    (deps : List Str) :
    ∀ (acc : List LintIssue × Nat × Nat),
      ∀ i ∈ (deps.foldl (mentionedDepStep allDeps ignorePats lines) acc).1,
        i ∈ acc.1 ∨ i.rule = toL "no-missing-dependency" := by
  induction deps with
  | nil =>
    intro acc i hi
    exact Or.inl hi
  | cons d ds ih =>
    intro acc i hi
    rw [List.foldl_cons] at hi
    rcases ih _ i hi with hacc | hr
    · exact mentionedDepStep_issue_mem allDeps ignorePats lines acc d i hacc
    · exact Or.inr hr

lemma deprecatedIssues_filter_nil (lines : List Str) (sev : Severity)
    (allDeps : List Str) (name : Str) (table : List (Str × Str))
    (hnot : name ∉ table.map Prod.fst) :
    (table.filterMap (fun dr => if dr.1 ∈ allDeps then
        some (mkDeprecatedDepIssue lines sev dr.1 dr.2)
      else none)).filter (isDeprecatedIssueFor name) = [] := by
  induction table with
  | nil => rfl
  | cons hd tl ih =>
    obtain ⟨d, r⟩ := hd
    simp only [List.map_cons, List.mem_cons] at hnot
    push_neg at hnot
    simp only [List.filterMap_cons]
    split
    · exact ih hnot.2
    · rename_i b heq
      have hcond : ¬ (decide (d = name) = true) := by
        simp only [decide_eq_true_eq]
        exact fun h => hnot.1 h.symm
      split at heq
      · injection heq with heq
        subst heq
        rw [List.filter_cons, isDeprecatedIssueFor_mk, if_neg hcond]
        exact ih hnot.2
      · cases heq

lemma deprecatedIssues_filter_one (lines : List Str) (sev : Severity)
    (allDeps : List Str) (name repl : Str) (table : List (Str × Str))
    (hnd : (table.map Prod.fst).Nodup)
    (hmem : (name, repl) ∈ table) (hin : name ∈ allDeps) :
    (table.filterMap (fun dr => if dr.1 ∈ allDeps then
        some (mkDeprecatedDepIssue lines sev dr.1 dr.2)
      else none)).filter (isDeprecatedIssueFor name)
      = [mkDeprecatedDepIssue lines sev name repl] := by
  induction table with
  | nil => cases hmem
  | cons hd tl ih =>
    obtain ⟨d, r⟩ := hd
    simp only [List.map_cons, List.nodup_cons] at hnd
    rcases List.mem_cons.mp hmem with heq | htl
    · injection heq with h1 h2
      subst h1
      subst h2
      simp only [List.filterMap_cons, if_pos hin]
      rw [List.filter_cons, isDeprecatedIssueFor_mk, if_pos (by simp),
        deprecatedIssues_filter_nil lines sev allDeps name tl hnd.1]
    · have hdne : d ≠ name := by
        intro h
        subst h
        exact hnd.1 (List.mem_map.mpr ⟨(d, repl), htl, rfl⟩)
      simp only [List.filterMap_cons]
      split
      · exact ih hnd.2 htl
      · rename_i b heq
        have hcond : ¬ (decide (d = name) = true) := by
          simp only [decide_eq_true_eq]
          exact hdne
        split at heq
        · injection heq with heq
          subst heq
          rw [List.filter_cons, isDeprecatedIssueFor_mk, if_neg hcond]
          exact ih hnd.2 htl
        · cases heq

/-- Claim C7: whenever the root manifest declares a dependency present in
the fixed deprecated-package table, `checkDependencies` raises exactly one
`deprecated-dependency` issue for that package, whose suggestion names the
table's replacement; this holds for every parsed document (with or without
the package mentioned in the text), and under the default configuration the
severity is info. -/
theorem checkDependencies_deprecated_exactly_one (parsed : ParsedAgentsMd)
    (pkg : Pkg) (name repl : Str)
    (hmem : (name, repl) ∈ DEPRECATED_PACKAGES)
    (hdecl : name ∈ pkg.dependencies) :
    ((checkDependencies parsed (some pkg) defaultConfig).issues.filter
        (isDeprecatedIssueFor name))
      = [mkDeprecatedDepIssue parsed.lines .info name repl]
    ∧ (mkDeprecatedDepIssue parsed.lines .info name repl).suggestion
        = some (toL "Consider migrating to: " ++ repl)
    ∧ (mkDeprecatedDepIssue parsed.lines .info name repl).severity
        = .info := by
  refine ⟨?_, rfl, rfl⟩
  show ((parsed.mentionedDependencies.foldl
      (mentionedDepStep _ _ parsed.lines) ([], 0, 0)).1
    ++ deprecatedIssuesOf _ parsed.lines .info).filter
      (isDeprecatedIssueFor name)
    = [mkDeprecatedDepIssue parsed.lines .info name repl]
  rw [List.filter_append]
  have hm : ((parsed.mentionedDependencies.foldl
      (mentionedDepStep (setOfList (pkg.dependencies ++ pkg.devDependencies
        ++ pkg.peerDependencies)) (defaultConfig.ignorePatterns.getD [])
        parsed.lines) ([], 0, 0)).1).filter
        (isDeprecatedIssueFor name) = [] := by
    rw [List.filter_eq_nil_iff]
    intro i hi
    rcases mentionedDep_foldl_issue_mem _ _ _ _ _ i hi with h | hr
    · cases h
    · simp only [isDeprecatedIssueFor, Bool.and_eq_true, decide_eq_true_eq,
        not_and]
      intro hrule
      rw [hr] at hrule
      cases hrule
  rw [hm, List.nil_append]
  unfold deprecatedIssuesOf
  exact deprecatedIssues_filter_one parsed.lines .info _ name repl
    DEPRECATED_PACKAGES (by decide) hmem
    (mem_setOfList.mpr (List.mem_append.mpr (Or.inl
      (List.mem_append.mpr (Or.inl hdecl)))))

/-- The empty parsed document. -/
def emptyParsed : ParsedAgentsMd :=
  { rawContent := [], sections := [], mentionedPaths := [],
    mentionedScripts := [], mentionedDependencies := [],
    mentionedFrameworks := [], lines := [] }

/-- A manifest declaring only `moment`. -/
def momentPkg : Pkg := { dependencies := [toL "moment"] }

/-- Claim C7, witness: the theorem at a manifest declaring `moment` and a
document that never mentions it. -/
theorem checkDependencies_deprecated_exactly_one_witness :
    ((checkDependencies emptyParsed (some momentPkg) defaultConfig).issues.filter
        (isDeprecatedIssueFor (toL "moment")))
      = [mkDeprecatedDepIssue emptyParsed.lines .info (toL "moment")
          (toL "date-fns or dayjs")]
    ∧ (mkDeprecatedDepIssue emptyParsed.lines .info (toL "moment")
        (toL "date-fns or dayjs")).suggestion
      = some (toL "Consider migrating to: " ++ toL "date-fns or dayjs")
    ∧ (mkDeprecatedDepIssue emptyParsed.lines .info (toL "moment")
        (toL "date-fns or dayjs")).severity = .info :=
  checkDependencies_deprecated_exactly_one emptyParsed momentPkg
    (toL "moment") (toL "date-fns or dayjs") (by decide) (by decide)

/-! ## Claim C8: `failed` versus `issues.length` across the validators -/

/-- Claim C8, counterexample: with `moment` declared and nothing mentioned,
the dependencies checker pushes one deprecated-dependency issue while never
incrementing `failed`, so `failed = 0` but `issues.length = 1` — the
dependencies checker also violates `failed == issues.length`. -/
theorem checkDependencies_failed_ne_issues :
    (checkDependencies emptyParsed (some momentPkg) defaultConfig).failed = 0
    ∧ (checkDependencies emptyParsed (some momentPkg)
        defaultConfig).issues.length = 1 := by
  decide

lemma mentionedDepStep_count (allDeps ignorePats lines : List Str)
    (acc : List LintIssue × Nat × Nat) (d : Str) :
    (mentionedDepStep allDeps ignorePats lines acc d).2.2
        + (acc.1.filter (fun i => i.rule = toL "no-missing-dependency")).length
      = acc.2.2 + (((mentionedDepStep allDeps ignorePats lines acc d).1).filter
          (fun i => i.rule = toL "no-missing-dependency")).length := by
  simp only [mentionedDepStep]
  split_ifs
  · rfl
  · rfl
  · rfl
  · simp [mkMissingDepIssue, List.filter_append]
    omega

lemma mentionedDep_foldl_count (allDeps ignorePats lines : List Str)
    (deps : List Str) :
    ∀ (acc : List LintIssue × Nat × Nat),
      (deps.foldl (mentionedDepStep allDeps ignorePats lines) acc).2.2
          + (acc.1.filter (fun i => i.rule = toL "no-missing-dependency")).length
        = acc.2.2
          + (((deps.foldl (mentionedDepStep allDeps ignorePats lines) acc).1).filter
              (fun i => i.rule = toL "no-missing-dependency")).length := by
  induction deps with
  | nil => intro acc; rfl
  | cons d ds ih =>
    intro acc
    rw [List.foldl_cons]
    have h1 := ih (mentionedDepStep allDeps ignorePats lines acc d)
    have h2 := mentionedDepStep_count allDeps ignorePats lines acc d
    omega

lemma deprecatedIssuesOf_rules (allDeps lines : List Str) (sev : Severity) :
    ∀ i ∈ deprecatedIssuesOf allDeps lines sev,
      i.rule = toL "deprecated-dependency" := by
  intro i hi
  unfold deprecatedIssuesOf at hi
  rcases List.mem_filterMap.mp hi with ⟨dr, _, hdr⟩
  split at hdr
  · injection hdr with hdr
    subst hdr
    rfl
  · cases hdr

lemma fsPathStep_count (lines : List Str) (existsAt : Str → Bool)
    (acc : List LintIssue × Nat × Nat) (p : Str) :
    (fsPathStep lines existsAt acc p).2.2
        + (acc.1.filter (fun i => i.rule = toL "no-missing-path")).length
      = acc.2.2 + (((fsPathStep lines existsAt acc p).1).filter
          (fun i => i.rule = toL "no-missing-path")).length := by
  unfold fsPathStep
  split
  · rfl
  · split
    · rfl
    · simp [mkMissingPathIssue, List.filter_append]
      omega

lemma fsPath_foldl_count (lines : List Str) (existsAt : Str → Bool)
    (paths : List Str) :
    ∀ (acc : List LintIssue × Nat × Nat),
      (paths.foldl (fsPathStep lines existsAt) acc).2.2
          + (acc.1.filter (fun i => i.rule = toL "no-missing-path")).length
        = acc.2.2
          + (((paths.foldl (fsPathStep lines existsAt) acc).1).filter
              (fun i => i.rule = toL "no-missing-path")).length := by
  induction paths with
  | nil => intro acc; rfl
  | cons p ps ih =>
    intro acc
    rw [List.foldl_cons]
    have h1 := ih (fsPathStep lines existsAt acc p)
    have h2 := fsPathStep_count lines existsAt acc p
    omega

lemma fsDir_foldl_filter (lines : List Str) (existsAt : Str → Bool)
    (dirs : List Str) :
    ∀ (issues : List LintIssue),
      ((dirs.foldl (fsDirStep lines existsAt) issues).filter
          (fun i => i.rule = toL "no-missing-path"))
        = issues.filter (fun i => i.rule = toL "no-missing-path") := by
  induction dirs with
  | nil => intro issues; rfl
  | cons dir ds ih =>
    intro issues
    rw [List.foldl_cons, ih]
    simp only [fsDirStep]
    split_ifs
    · rfl
    · rw [List.filter_append]
      simp [mkMissingDirIssue]
      decide
    · rfl

lemma npmScriptStep_count (lines allScripts : List Str)
    (acc : List LintIssue × Nat × Nat) (s : Str) :
    (npmScriptStep lines allScripts acc s).2.2
        + (acc.1.filter (fun i => i.rule = toL "no-missing-script")).length
      = acc.2.2 + (((npmScriptStep lines allScripts acc s).1).filter
          (fun i => i.rule = toL "no-missing-script")).length := by
  unfold npmScriptStep
  split
  · rfl
  · simp [mkMissingScriptIssue, List.filter_append]
    omega

lemma npmScript_foldl_count (lines allScripts : List Str)
    (scripts : List Str) :
    ∀ (acc : List LintIssue × Nat × Nat),
      (scripts.foldl (npmScriptStep lines allScripts) acc).2.2
          + (acc.1.filter (fun i => i.rule = toL "no-missing-script")).length
        = acc.2.2
          + (((scripts.foldl (npmScriptStep lines allScripts) acc).1).filter
              (fun i => i.rule = toL "no-missing-script")).length := by
  induction scripts with
  | nil => intro acc; rfl
  | cons p ps ih =>
    intro acc
    rw [List.foldl_cons]
    have h1 := ih (npmScriptStep lines allScripts acc p)
    have h2 := npmScriptStep_count lines allScripts acc p
    omega

/-- Claim C8 (amended): `failed == issues.length` holds unconditionally for
the structure, framework-staleness and cross-consistency checkers; the
filesystem, script and DEPENDENCIES checkers can push issues that do not
increment `failed` (conventional-directory warnings, the missing-test-script
warning, deprecated-dependency issues): for those three, `failed` equals the
number of issues of the per-item rule (`no-missing-path`,
`no-missing-script`, `no-missing-dependency` respectively). -/
theorem validators_failed_counts :
    (∀ parsed config, (checkStructure parsed config).failed
        = (checkStructure parsed config).issues.length)
    ∧ (∀ parsed pkg, (checkFrameworkStaleness parsed pkg).failed
        = (checkFrameworkStaleness parsed pkg).issues.length)
    ∧ (∀ files, (checkCrossConsistency files).failed
        = (checkCrossConsistency files).issues.length)
    ∧ (∀ parsed pkg config, (checkDependencies parsed pkg config).failed
        = ((checkDependencies parsed pkg config).issues.filter
            (fun i => i.rule = toL "no-missing-dependency")).length)
    ∧ (∀ parsed existsAt, (checkFilesystem parsed existsAt).failed
        = ((checkFilesystem parsed existsAt).issues.filter
            (fun i => i.rule = toL "no-missing-path")).length)
    ∧ (∀ parsed manifests, (checkNpmScripts parsed manifests).failed
        = ((checkNpmScripts parsed manifests).issues.filter
            (fun i => i.rule = toL "no-missing-script")).length) := by
  refine ⟨fun _ _ => rfl, fun _ _ => rfl, ?_, ?_, ?_, ?_⟩
  · intro files
    unfold checkCrossConsistency
    split <;> rfl
  · intro parsed pkg config
    cases pkg with
    | none => rfl
    | some p =>
      show (parsed.mentionedDependencies.foldl
          (mentionedDepStep _ _ parsed.lines) ([], 0, 0)).2.2
        = (((parsed.mentionedDependencies.foldl
            (mentionedDepStep _ _ parsed.lines) ([], 0, 0)).1
          ++ deprecatedIssuesOf _ parsed.lines _).filter
            (fun i => i.rule = toL "no-missing-dependency")).length
      rw [List.filter_append]
      have hdep : ((deprecatedIssuesOf (setOfList (p.dependencies
          ++ p.devDependencies ++ p.peerDependencies)) parsed.lines
          (config.staleDependencySeverity.getD .info)).filter
            (fun i => i.rule = toL "no-missing-dependency")) = [] := by
        rw [List.filter_eq_nil_iff]
        intro i hi
        have := deprecatedIssuesOf_rules _ _ _ i hi
        simp only [decide_eq_true_eq]
        rw [this]
        intro hc
        cases hc
      rw [hdep]
      have := mentionedDep_foldl_count (setOfList (p.dependencies
        ++ p.devDependencies ++ p.peerDependencies))
        (config.ignorePatterns.getD []) parsed.lines
        parsed.mentionedDependencies ([], 0, 0)
      simpa using this
  · intro parsed existsAt
    show (parsed.mentionedPaths.foldl
        (fsPathStep parsed.lines existsAt) ([], 0, 0)).2.2
      = ((commonDirs.foldl (fsDirStep parsed.lines existsAt)
          (parsed.mentionedPaths.foldl (fsPathStep parsed.lines existsAt)
            ([], 0, 0)).1).filter
          (fun i => i.rule = toL "no-missing-path")).length
    rw [fsDir_foldl_filter]
    have := fsPath_foldl_count parsed.lines existsAt parsed.mentionedPaths
      ([], 0, 0)
    simpa using this
  · intro parsed manifests
    simp only [checkNpmScripts]
    split
    · rfl
    · have hcount := npmScript_foldl_count parsed.lines
        (setOfList manifests.flatten) parsed.mentionedScripts ([], 0, 0)
      split
      · simpa using hcount
      · rw [List.filter_append]
        have h0 : ([missingTestScriptIssue].filter
            (fun i => i.rule = toL "no-missing-script")) = [] := by decide
        rw [h0, List.append_nil]
        simpa using hcount


/-! ## Remediation engine (src/fix.ts) -/

/-- A fix action (`FixAction` in src/fix.ts). -/
inductive FixAction
  | removeLine (lineNumber : Nat)
  | addSection (content : Str)
deriving DecidableEq, Repr

/-- The fixed section templates (`SECTION_TEMPLATES`). -/
def SECTION_TEMPLATES : List (Str × Str) :=
  [(toL "missing-setup-section",
    toL "\n## Setup\n\n```bash\n# TODO: add setup/install commands\n```\n"),
   (toL "missing-test-section",
    toL "\n## Testing\n\n```bash\n# TODO: add test command (e.g., npm test)\n```\n"),
   (toL "missing-build-section",
    toL "\n## Build\n\n```bash\n# TODO: add build command (e.g., npm run build)\n```\n")]

/-- Uppercase each word-initial character
(JavaScript `replace(/\b\w/g, up)`). -/
def upWordsAux : Bool → Str → Str
  | _, [] => []
  | prevWord, c :: rest =>
    (if isWordChar c && ! prevWord then c.toUpper else c) ::
      upWordsAux (isWordChar c) rest

/-- Uppercase each word-initial character. -/
def upWords (s : Str) : Str := upWordsAux false s

/-- JavaScript replace of each dash by a space. -/
def dashToSpace (s : Str) : Str :=
  s.map (fun c => if c = '-' then ' ' else c)

/-- `getSectionTemplate` from src/fix.ts: the fixed templates, then the
`missing-custom-section-<name>` rule family. -/
def getSectionTemplate (rule : Str) : Option Str :=
  match (SECTION_TEMPLATES.filter (fun rt => rt.1 = rule)).head? with
  | some rt => some rt.2
  | none =>
    if hasPref (toL "missing-custom-section-") rule ∧ 23 < rule.length then
      let name := upWords (dashToSpace (rule.drop 23))
      some (toL "\n## " ++ name ++ toL "\n\n<!-- TODO: add " ++ name
        ++ toL " content -->\n")
    else none

/-- `buildFixAction` from src/fix.ts: an in-bounds concrete line number
yields a removal, a known missing-section rule yields a template append,
anything else is advisory-only. -/
def buildFixAction (issue : LintIssue) (fileLines : List Str) :
    Option FixAction :=
  match issue.line with
  | some n =>
    if 1 ≤ n ∧ n ≤ fileLines.length then some (.removeLine n)
    else (getSectionTemplate issue.rule).map .addSection
  | none => (getSectionTemplate issue.rule).map .addSection

/-- The decision state of one remediation session: the pre-supplied answer
queue, the accepted removal set (insertion-ordered), the accepted section
texts (acceptance-ordered), and the quit flag. -/
structure FixState where
  answers : List Str
  linesToRemove : List Nat
  sectionsToAdd : List Str
  quit : Bool
deriving DecidableEq, Repr

/-- Dequeue one pre-supplied answer (`answers[idx++] ?? ""`), normalized as
`readAllStdinLines` does (trim then lower-case). -/
def popAnswer : List Str → Str × List Str
  | [] => ([], [])
  | a :: rest => (lowerS (jsTrim a), rest)

/-- Process one issue of the interactive loop: skip after quit, skip
advisory issues without consuming an answer, otherwise consume one answer
and record the decision (`y`/`yes` accepts, `q`/`quit` stops the loop,
anything else skips). -/
def processIssue (fileLines : List Str) (st : FixState) (issue : LintIssue) :
    FixState :=
  if st.quit then st
  else
    match buildFixAction issue fileLines with
    | none => st
    | some fix =>
      let ar := popAnswer st.answers
      if ar.1 = toL "q" ∨ ar.1 = toL "quit" then
        { st with answers := ar.2, quit := true }
      else if ar.1 = toL "y" ∨ ar.1 = toL "yes" then
        match fix with
        | .removeLine n =>
          { st with
            answers := ar.2
            linesToRemove := setAddNat st.linesToRemove n }
        | .addSection content =>
          { st with
            answers := ar.2
            sectionsToAdd := st.sectionsToAdd ++ [content] }
      else { st with answers := ar.2 }

/-- The interactive loop over every issue of every result, in order. -/
def runSession (results : List CheckResult) (fileLines : List Str)
    (answers : List Str) : FixState :=
  results.foldl (fun st r => r.issues.foldl (processIssue fileLines) st)
    { answers := answers, linesToRemove := [], sectionsToAdd := [],
      quit := false }

/-- Descending insertion (for `sort((a, b) => b - a)`). -/
def insertDesc (x : Nat) : List Nat → List Nat
  | [] => [x]
  | y :: ys => if y ≤ x then x :: y :: ys else y :: insertDesc x ys

/-- Sort a list of line numbers in descending order. -/
def sortDesc (l : List Nat) : List Nat := l.foldr insertDesc []

/-- Join the accepted section texts with newlines (`join`). -/
def joinNl (ls : List Str) : Str := List.intercalate ['\n'] ls

/-- Split a text on newlines (`split`). -/
def splitNl (s : Str) : List Str := s.splitOn '\n'

/-- The application step of `runFixMode`: remove the accepted lines in
descending order (`splice(lineNum - 1, 1)` per line), then append the
accepted section texts. Every accepted line number is at least 1, as
enforced by `buildFixAction`. -/
def applyFixes (fileLines : List Str) (linesToRemove : List Nat)
    (sectionsToAdd : List Str) : List Str :=
  let sorted := sortDesc linesToRemove
  let newLines := sorted.foldl (fun acc n => acc.eraseIdx (n - 1)) fileLines
  if 0 < sectionsToAdd.length then newLines ++ splitNl (joinNl sectionsToAdd)
  else newLines

/-- The effect of one full `runFixMode` session on the file content: `none`
when no write occurs (no issues at all, or nothing accepted), otherwise the
final lines written back in the single write. -/
def runFixModePure (results : List CheckResult) (fileLines : List Str)
    (answers : List Str) : Option (List Str) :=
  if ((results.map (fun r => r.issues)).flatten).length = 0 then none
  else
    let st := runSession results fileLines answers
    if st.linesToRemove.length + st.sectionsToAdd.length = 0 then none
    else some (applyFixes fileLines st.linesToRemove st.sectionsToAdd)


/-! ## Claim C6: the two-removal remediation scenario -/

/-- A one-checker report carrying exactly two issues. -/
def twoIssueResult (i1 i2 : LintIssue) : CheckResult :=
  { checker := toL "filesystem", issues := [i1, i2], passed := 0,
    failed := 2 }

/-- Claim C6: in one session over a report with exactly two fixable issues,
a RemoveLine fix for 1-based line 23 and one for line 41, answering yes to
both (and accepting nothing else) produces exactly the original lines with
lines 23 and 41 deleted and all remaining lines in their original relative
order; removals are applied in descending line order, and accepted section
texts are appended, in acceptance order, at the end of the document. -/
theorem fix_remove_lines_23_41 (fileLines : List Str) (i1 i2 : LintIssue)
    (h1 : i1.line = some 23) (h2 : i2.line = some 41)
    (hlen : 41 ≤ fileLines.length) :
    runFixModePure [twoIssueResult i1 i2] fileLines [toL "y", toL "y"]
      = some (fileLines.take 22 ++ (fileLines.drop 23).take 17
          ++ fileLines.drop 41)
    ∧ (∀ (rem : List Nat) (secs : List Str), secs ≠ [] →
        applyFixes fileLines rem secs
          = applyFixes fileLines rem [] ++ splitNl (joinNl secs)) := by
  have hb1 : buildFixAction i1 fileLines = some (.removeLine 23) := by
    simp only [buildFixAction, h1]
    rw [if_pos ⟨by norm_num, by omega⟩]
  have hb2 : buildFixAction i2 fileLines = some (.removeLine 41) := by
    simp only [buildFixAction, h2]
    rw [if_pos ⟨by norm_num, by omega⟩]
  have hstep1 : processIssue fileLines
      { answers := [toL "y", toL "y"], linesToRemove := [],
        sectionsToAdd := [], quit := false } i1
      = { answers := [toL "y"], linesToRemove := [23], sectionsToAdd := [],
          quit := false } := by
    unfold processIssue
    rw [if_neg (by simp), hb1]
    decide
  have hstep2 : processIssue fileLines
      { answers := [toL "y"], linesToRemove := [23], sectionsToAdd := [],
        quit := false } i2
      = { answers := [], linesToRemove := [23, 41], sectionsToAdd := [],
          quit := false } := by
    unfold processIssue
    rw [if_neg (by simp), hb2]
    decide
  have hsess : runSession [twoIssueResult i1 i2] fileLines
      [toL "y", toL "y"]
      = { answers := [], linesToRemove := [23, 41], sectionsToAdd := [],
          quit := false } := by
    unfold runSession twoIssueResult
    simp only [List.foldl_cons, List.foldl_nil]
    rw [hstep1, hstep2]
  constructor
  · unfold runFixModePure
    rw [if_neg (by simp [twoIssueResult])]
    simp only [hsess]
    rw [if_neg (by norm_num)]
    congr 1
    show (fileLines.eraseIdx 40).eraseIdx 22
      = fileLines.take 22 ++ (fileLines.drop 23).take 17
        ++ fileLines.drop 41
    rw [List.eraseIdx_eq_take_drop_succ, List.eraseIdx_eq_take_drop_succ,
      List.take_append_of_le_length (by rw [List.length_take]; omega),
      List.drop_append_of_le_length (by rw [List.length_take]; omega),
      List.take_take, List.drop_take, List.append_assoc]
    norm_num
  · intro rem secs hsecs
    unfold applyFixes
    rw [if_pos (List.length_pos.mpr hsecs),
      if_neg (show ¬ 0 < ([] : List Str).length by simp)]

/-- A first concrete fixable issue (line 23). -/
def fixIssue1 : LintIssue :=
  { rule := toL "no-missing-path", severity := .error, message := toL "m1",
    line := some 23 }

/-- A second concrete fixable issue (line 41). -/
def fixIssue2 : LintIssue :=
  { rule := toL "no-missing-path", severity := .error, message := toL "m2",
    line := some 41 }

/-- A concrete 41-line file. -/
def fixLines : List Str := (List.range 41).map (fun _ => toL "x")

/-- Claim C6, witness: the theorem at a concrete 41-line file and two
concrete issues. -/
theorem fix_remove_lines_23_41_witness :
    runFixModePure [twoIssueResult fixIssue1 fixIssue2]
      fixLines [toL "y", toL "y"]
      = some (fixLines.take 22 ++ (fixLines.drop 23).take 17
          ++ fixLines.drop 41) :=
  (fix_remove_lines_23_41 fixLines fixIssue1 fixIssue2 rfl rfl
    (by decide)).1

/-! ## Claim C10: the multi-document overall score -/

/-- The aggregation step of `lintAll` (src/linter.ts): combine the per-file
reports with the cross-document check result. -/
def mkMultiReport (reports : List LintReport) (crossCheck : CheckResult) :
    MultiLintReport :=
  let overallScore := jsRound
    (((reports.map (fun r => r.score)).sum : ℚ) / (reports.length : ℚ))
  let crossIssues := crossCheck.issues
  { files := reports.map (fun r => r.file),
    reports := reports,
    crossCheck := crossCheck,
    overallScore := overallScore,
    totalErrors := (reports.map (fun r => r.errors)).sum
      + (crossIssues.filter (fun i => i.severity = Severity.error)).length,
    totalWarnings := (reports.map (fun r => r.warnings)).sum
      + (crossIssues.filter (fun i => i.severity = Severity.warn)).length,
    totalInfos := (reports.map (fun r => r.infos)).sum
      + (crossIssues.filter (fun i => i.severity = Severity.info)).length }

/-- Claim C10: in a multi-document run the overall score is the rounded
arithmetic mean of the per-document report scores, and it is unaffected by
the cross-document check result; cross-check issues contribute only to the
severity-bucketed totals. -/
theorem lintAll_overall_score (reports : List LintReport)
    (cross cross' : CheckResult) (_h : reports ≠ []) :
    (mkMultiReport reports cross).overallScore
      = jsRound (((reports.map (fun r => r.score)).sum : ℚ)
          / (reports.length : ℚ))
    ∧ (mkMultiReport reports cross).overallScore
        = (mkMultiReport reports cross').overallScore
    ∧ (mkMultiReport reports cross).totalErrors
        = (reports.map (fun r => r.errors)).sum
          + (cross.issues.filter
              (fun i => i.severity = Severity.error)).length
    ∧ (mkMultiReport reports cross).totalWarnings
        = (reports.map (fun r => r.warnings)).sum
          + (cross.issues.filter
              (fun i => i.severity = Severity.warn)).length
    ∧ (mkMultiReport reports cross).totalInfos
        = (reports.map (fun r => r.infos)).sum
          + (cross.issues.filter
              (fun i => i.severity = Severity.info)).length :=
  ⟨rfl, rfl, rfl, rfl, rfl⟩

/-- A concrete single-document report list. -/
def sampleReport : LintReport :=
  { file := toL "AGENTS.md", score := 80, results := [], totalIssues := 0,
    errors := 0, warnings := 0, infos := 0 }

/-- A concrete cross-check issue. -/
def sampleCrossIssue : LintIssue :=
  { rule := toL "cross-pm-conflict", severity := .error,
    message := toL "m" }

/-- A nonempty cross-check result. -/
def sampleCross : CheckResult :=
  { checker := toL "cross-consistency", issues := [sampleCrossIssue],
    passed := 0, failed := 1 }

/-- An empty cross-check result. -/
def emptyCross : CheckResult :=
  { checker := toL "cross-consistency", issues := [], passed := 0,
    failed := 0 }

/-- Claim C10, witness: the theorem at one concrete report and two distinct
cross-check results. -/
theorem lintAll_overall_score_witness :
    (mkMultiReport [sampleReport] sampleCross).overallScore
      = jsRound ((([sampleReport].map (fun r => r.score)).sum : ℚ)
          / (([sampleReport] : List LintReport).length : ℚ))
    ∧ (mkMultiReport [sampleReport] sampleCross).overallScore
        = (mkMultiReport [sampleReport] emptyCross).overallScore
    ∧ (mkMultiReport [sampleReport] sampleCross).totalErrors
        = ([sampleReport].map (fun r => r.errors)).sum
          + (sampleCross.issues.filter
              (fun i => i.severity = Severity.error)).length
    ∧ (mkMultiReport [sampleReport] sampleCross).totalWarnings
        = ([sampleReport].map (fun r => r.warnings)).sum
          + (sampleCross.issues.filter
              (fun i => i.severity = Severity.warn)).length
    ∧ (mkMultiReport [sampleReport] sampleCross).totalInfos
        = ([sampleReport].map (fun r => r.infos)).sum
          + (sampleCross.issues.filter
              (fun i => i.severity = Severity.info)).length :=
  lintAll_overall_score [sampleReport] sampleCross emptyCross
    (List.cons_ne_nil _ _)

end AgentsLint
